import Mathlib

/-!
Verification development for the snij-studio RAG engine.

The TypeScript sources are shallowly embedded into Lean:
- JavaScript numbers are modelled as exact rationals extended with the IEEE
  special values NaN and signed infinities (`JsNum`); binary64 rounding is
  not modelled, since none of the verified properties depend on it.
- JavaScript strings are modelled as Lean strings / lists of Unicode scalar
  values; `toLowerCase` is modelled by the basic-latin `Char.toLower`
  (the inputs exercised by concrete witnesses stay inside that fragment).
- `Map` objects are modelled as insertion-ordered association lists, and the
  stable `Array.prototype.sort` as a stable insertion sort on the comparator
  order.
- External collaborators (search service, LLM, clock) enter as explicit
  parameters: the outcome of each retrieval branch is an `Except`, the
  generated answer text and the current year are arguments.
-/

attribute [local semireducible] Rat.add Rat.mul Rat.inv Rat.sub

/-- A JavaScript number: NaN, plus or minus infinity, or a finite value
(modelled as an exact rational). -/
inductive JsNum where
  | nan : JsNum
  | inf : JsNum
  | ninf : JsNum
  | num : ℚ → JsNum
deriving DecidableEq, Repr

/-- IEEE addition on `JsNum` (exact on finite values). -/
def JsNum.add : JsNum → JsNum → JsNum
  | nan, _ => nan
  | _, nan => nan
  | inf, ninf => nan
  | ninf, inf => nan
  | inf, _ => inf
  | _, inf => inf
  | ninf, _ => ninf
  | _, ninf => ninf
  | num a, num b => num (a + b)

/-- IEEE subtraction on `JsNum`. -/
def JsNum.sub : JsNum → JsNum → JsNum
  | nan, _ => nan
  | _, nan => nan
  | inf, inf => nan
  | ninf, ninf => nan
  | inf, _ => inf
  | ninf, _ => ninf
  | _, inf => ninf
  | _, ninf => inf
  | num a, num b => num (a - b)

/-- IEEE multiplication on `JsNum`. -/
def JsNum.mul : JsNum → JsNum → JsNum
  | nan, _ => nan
  | _, nan => nan
  | inf, inf => inf
  | inf, ninf => ninf
  | ninf, inf => ninf
  | ninf, ninf => inf
  | inf, num b => if b = 0 then nan else if 0 < b then inf else ninf
  | num a, inf => if a = 0 then nan else if 0 < a then inf else ninf
  | ninf, num b => if b = 0 then nan else if 0 < b then ninf else inf
  | num a, ninf => if a = 0 then nan else if 0 < a then ninf else inf
  | num a, num b => num (a * b)

/-- IEEE division on `JsNum`; division of a nonzero finite value by zero
gives a signed infinity, `0/0` gives NaN. -/
def JsNum.div : JsNum → JsNum → JsNum
  | nan, _ => nan
  | _, nan => nan
  | inf, inf => nan
  | inf, ninf => nan
  | ninf, inf => nan
  | ninf, ninf => nan
  | inf, num b => if 0 ≤ b then inf else ninf
  | ninf, num b => if 0 ≤ b then ninf else inf
  | num _, inf => num 0
  | num _, ninf => num 0
  | num a, num b =>
    if b = 0 then (if a = 0 then nan else if 0 < a then inf else ninf)
    else num (a / b)

/-- The JavaScript comparison `a <= b` (false whenever either side is NaN). -/
def JsNum.jle : JsNum → JsNum → Bool
  | nan, _ => false
  | _, nan => false
  | ninf, _ => true
  | _, ninf => false
  | _, inf => true
  | inf, _ => false
  | num a, num b => a ≤ b

/-- The JavaScript comparison `a < b` (false whenever either side is NaN). -/
def JsNum.jlt : JsNum → JsNum → Bool
  | nan, _ => false
  | _, nan => false
  | ninf, ninf => false
  | ninf, _ => true
  | _, ninf => false
  | inf, _ => false
  | _, inf => true
  | num a, num b => a < b

/-- The JavaScript comparison `a >= b`. -/
def JsNum.jge (a b : JsNum) : Bool := JsNum.jle b a

/-- `Math.min`: NaN-propagating minimum. -/
def JsNum.jmin : JsNum → JsNum → JsNum
  | nan, _ => nan
  | _, nan => nan
  | a, b => if JsNum.jle a b then a else b

/-- `Math.max`: NaN-propagating maximum. -/
def JsNum.jmax : JsNum → JsNum → JsNum
  | nan, _ => nan
  | _, nan => nan
  | a, b => if JsNum.jle a b then b else a

/-- Insert an element into a list, placing it before the first element `b`
for which `le a b` holds; building block of the stable sort. -/
def insertLe (le : α → α → Bool) (a : α) : List α → List α
  | [] => [a]
  | b :: bs => if le a b then a :: b :: bs else b :: insertLe le a bs

/-- Stable insertion sort; models the stable `Array.prototype.sort`:
`le a b` means the comparator allows `a` to stay before `b`. -/
def stableSort (le : α → α → Bool) : List α → List α
  | [] => []
  | a :: as => insertLe le a (stableSort le as)

theorem insertLe_perm (le : α → α → Bool) (a : α) (l : List α) :
    (insertLe le a l).Perm (a :: l) := by
  induction l with
  | nil => exact List.Perm.refl _
  | cons b bs ih =>
    by_cases h : le a b = true
    · simp [insertLe, h]
    · simp only [insertLe, h, if_neg]
      simp only [Bool.not_eq_true] at h
      refine List.Perm.trans (List.Perm.cons b ih) ?_
      exact List.Perm.swap a b bs

theorem stableSort_perm (le : α → α → Bool) (l : List α) :
    (stableSort le l).Perm l := by
  induction l with
  | nil => exact List.Perm.refl _
  | cons a as ih =>
    exact List.Perm.trans (insertLe_perm le a (stableSort le as)) (List.Perm.cons a ih)

/-- The character set matched by the JavaScript regex class `\s`
(also the set removed by `String.prototype.trim`). -/
def jsWhitespaceB (c : Char) : Bool :=
  c.toNat = 9 || c.toNat = 10 || c.toNat = 11 || c.toNat = 12 || c.toNat = 13 ||
  c.toNat = 32 || c.toNat = 0xA0 || c.toNat = 0x1680 ||
  (0x2000 ≤ c.toNat && c.toNat ≤ 0x200A) ||
  c.toNat = 0x2028 || c.toNat = 0x2029 || c.toNat = 0x202F ||
  c.toNat = 0x205F || c.toNat = 0x3000 || c.toNat = 0xFEFF

/-- `String.prototype.trim` on a list of characters. -/
def jsTrimList (l : List Char) : List Char :=
  ((l.dropWhile jsWhitespaceB).reverse.dropWhile jsWhitespaceB).reverse

mutual
/-- `replace(\s+ , single space)`: main state, not inside a whitespace run. -/
def cwGo : List Char → List Char
  | [] => []
  | c :: cs => if jsWhitespaceB c then ' ' :: cwSkip cs else c :: cwGo cs

/-- `replace(\s+ , single space)`: a space was just emitted for the current
whitespace run; further run characters are dropped. -/
def cwSkip : List Char → List Char
  | [] => []
  | c :: cs => if jsWhitespaceB c then cwSkip cs else c :: cwGo cs
end

mutual
/-- Split on runs of separator characters: accumulating a segment. -/
def srGo (p : Char → Bool) : List Char → List Char → List (List Char)
  | [], acc => [acc.reverse]
  | c :: cs, acc => if p c then acc.reverse :: srSkip p cs else srGo p cs (c :: acc)

/-- Split on runs of separator characters: inside a separator run. -/
def srSkip (p : Char → Bool) : List Char → List (List Char)
  | [] => [[]]
  | c :: cs => if p c then srSkip p cs else srGo p cs [c]
end

/-- `String.prototype.split` on a regex matching one-or-more characters of
class `p` (e.g. `split(/[\s,;:.!?]+/)`). -/
def splitRuns (p : Char → Bool) (l : List Char) : List (List Char) := srGo p l []

/-- `String.prototype.split` with a single-character separator string. -/
def splitCh (sep : Char) : List Char → List (List Char)
  | [] => [[]]
  | c :: cs =>
    if c = sep then [] :: splitCh sep cs
    else
      match splitCh sep cs with
      | [] => [[c]]
      | w :: ws => (c :: w) :: ws

/-- Does `hay` begin with `needle`? -/
def beginsWith : List Char → List Char → Bool
  | [], _ => true
  | _ :: _, [] => false
  | p :: ps, c :: cs => p == c && beginsWith ps cs

/-- `String.prototype.includes`: does `hay` contain `needle` as a
contiguous subsequence? -/
def containsSub (hay needle : List Char) : Bool :=
  match hay with
  | [] => needle.isEmpty
  | _ :: rest => beginsWith needle hay || containsSub rest needle

/-- `toLowerCase` (basic-latin model) on a string. -/
def jsToLowerStr (s : String) : String := String.mk (s.toList.map Char.toLower)

/-- Case-sensitive `includes` on strings. -/
def strContains (s pat : String) : Bool := containsSub s.toList pat.toList

/-- Case-insensitive regex `test` of a literal pattern (pattern written in
lower case): the subject is lower-cased first, then searched. -/
def ciContains (s pat : String) : Bool :=
  containsSub (s.toList.map Char.toLower) pat.toList

/-- Lookup in an insertion-ordered association list (`Map.prototype.get`). -/
def alookup (m : List (String × α)) (key : String) : Option α :=
  match m with
  | [] => none
  | (k, v) :: rest => if k = key then some v else alookup rest key

/-- `Map.prototype.set`: overwrite in place when the key exists, otherwise
append at the end (JavaScript maps preserve insertion order). -/
def mapSet (m : List (String × α)) (key : String) (v : α) : List (String × α) :=
  match m with
  | [] => [(key, v)]
  | (k, w) :: rest => if k = key then (k, v) :: rest else (k, w) :: mapSet rest key v

theorem alookup_mapSet (m : List (String × α)) (key key' : String) (v : α) :
    alookup (mapSet m key v) key' = if key' = key then some v else alookup m key' := by
  induction m with
  | nil =>
    by_cases h : key = key'
    · subst h; simp [mapSet, alookup]
    · simp [mapSet, alookup, h, Ne.symm h]
  | cons kv rest ih =>
    obtain ⟨k, w⟩ := kv
    by_cases hk : k = key
    · subst hk
      by_cases h : k = key'
      · subst h; simp [mapSet, alookup]
      · simp [mapSet, alookup, h, Ne.symm h]
    · by_cases h : k = key'
      · subst h
        simp [mapSet, hk, alookup, Ne.symm hk]
      · simp [mapSet, hk, alookup, h, ih]

theorem keys_mapSet (m : List (String × α)) (key : String) (v : α) :
    (mapSet m key v).map Prod.fst =
      if (alookup m key).isSome then m.map Prod.fst else m.map Prod.fst ++ [key] := by
  induction m with
  | nil => simp [mapSet, alookup]
  | cons kv rest ih =>
    obtain ⟨k, w⟩ := kv
    by_cases hk : k = key
    · subst hk
      simp [mapSet, alookup]
    · simp only [mapSet, if_neg hk, alookup, List.map_cons, ih]
      by_cases h : (alookup rest key).isSome <;> simp [h]

theorem alookup_eq_none_iff (m : List (String × α)) (key : String) :
    alookup m key = none ↔ key ∉ m.map Prod.fst := by
  induction m with
  | nil => simp [alookup]
  | cons kv rest ih =>
    obtain ⟨k, w⟩ := kv
    by_cases h : k = key
    · subst h; simp [alookup]
    · simp [alookup, h, ih, Ne.symm h]

theorem mem_of_alookup_eq_some {m : List (String × α)} {key : String} {v : α}
    (h : alookup m key = some v) : (key, v) ∈ m := by
  induction m with
  | nil => simp [alookup] at h
  | cons kv rest ih =>
    obtain ⟨k, w⟩ := kv
    by_cases hk : k = key
    · subst hk
      have hwv : w = v := by simpa [alookup] using h
      subst hwv
      exact List.mem_cons_self _ _
    · simp only [alookup, if_neg hk] at h
      exact List.mem_cons_of_mem _ (ih h)

theorem mem_mapSet {m : List (String × α)} {key : String} {v : α} {p : String × α}
    (h : p ∈ mapSet m key v) : p = (key, v) ∨ p ∈ m := by
  induction m with
  | nil => simpa [mapSet] using h
  | cons kv rest ih =>
    obtain ⟨k, w⟩ := kv
    by_cases hk : k = key
    · subst hk
      simp only [mapSet, if_pos rfl] at h
      rcases List.mem_cons.mp h with h1 | h1
      · exact Or.inl h1
      · exact Or.inr (List.mem_cons_of_mem _ h1)
    · simp only [mapSet, if_neg hk] at h
      rcases List.mem_cons.mp h with h1 | h1
      · exact Or.inr (by simp [h1])
      · rcases ih h1 with h2 | h2
        · exact Or.inl h2
        · exact Or.inr (List.mem_cons_of_mem _ h2)

theorem nodup_keys_mapSet {m : List (String × α)} {key : String} {v : α}
    (h : (m.map Prod.fst).Nodup) : ((mapSet m key v).map Prod.fst).Nodup := by
  rw [keys_mapSet]
  cases hh : alookup m key with
  | some w => simpa [hh] using h
  | none =>
    have hmem : key ∉ m.map Prod.fst := (alookup_eq_none_iff m key).mp hh
    simp only [hh, Option.isSome_none, Bool.false_eq_true, if_false]
    rw [List.nodup_append]
    refine ⟨h, List.nodup_singleton _, ?_⟩
    intro a ha hb
    simp only [List.mem_singleton] at hb
    subst hb
    exact hmem ha

theorem find?_assoc_of_nodup {m : List (String × α)} {key : String} {v : α}
    (hnd : (m.map Prod.fst).Nodup) (hmem : (key, v) ∈ m) :
    m.find? (fun e => e.1 == key) = some (key, v) := by
  induction m with
  | nil => simp at hmem
  | cons kv rest ih =>
    obtain ⟨k, w⟩ := kv
    simp only [List.map_cons, List.nodup_cons] at hnd
    rcases List.mem_cons.mp hmem with h | h
    · cases h
      simp [List.find?]
    · have hk : k ≠ key := by
        intro hkey
        subst hkey
        exact hnd.1 (List.mem_map.mpr ⟨(k, v), h, rfl⟩)
      have hbeq : (k == key) = false := by
        simpa using hk
      have hrest := ih hnd.2 h
      simp [List.find?, hbeq, hrest]

/-- A search hit (src/core/types.ts, interface SearchResult); the relevance
score is mutable and recomputed at each fusion / rerank stage. -/
structure SearchResult where
  id : String
  type : String := "loi"
  title : String := ""
  titleAr : Option String := none
  titleFr : Option String := none
  numero : String := ""
  date : String := ""
  score : JsNum := .num 0
  content : Option String := none
deriving DecidableEq, Repr

/-- A formatted source exposed to callers (src/core/types.ts, interface
Source). -/
structure Source where
  id : String
  type : String
  title : String
  numero : String
  date : String
  relevantPassage : String
  url : String
deriving DecidableEq, Repr

/-- Retriever.reciprocalRankFusion: weight of the lexical list. -/
def Retriever.LEXICAL_WEIGHT : ℚ := 3 / 5

/-- Retriever.reciprocalRankFusion: weight of the semantic list. -/
def Retriever.SEMANTIC_WEIGHT : ℚ := 2 / 5

/-- One `forEach` pass of Retriever.reciprocalRankFusion: walks a ranked
list, accumulating `weight / (k + rank + 1)` into the score map keyed by id
and recording document metadata (`overwriteDocs` distinguishes the first
pass, which always stores the document, from the second, which stores it
only when the id is absent). -/
def Retriever.fusionLoop (w k : ℚ) (overwriteDocs : Bool) :
    List SearchResult → ℕ →
    List (String × JsNum) × List (String × SearchResult) →
    List (String × JsNum) × List (String × SearchResult)
  | [], _, st => st
  | doc :: rest, rank, (scores, docs) =>
    Retriever.fusionLoop w k overwriteDocs rest (rank + 1)
      (mapSet scores doc.id
        (JsNum.add ((alookup scores doc.id).getD (.num 0))
          (JsNum.div (.num w) (.num (k + (rank : ℚ) + 1)))),
       if overwriteDocs then mapSet docs doc.id doc
       else if (alookup docs doc.id).isSome then docs else mapSet docs doc.id doc)

/-- The comparator order of `sort((a, b) => b[1] - a[1])`: entry `a` may
stay before `b` when the comparator value is nonpositive (NaN counts as
zero, per the ECMAScript SortCompare specification). -/
def Retriever.fusionLe (a b : String × JsNum) : Bool :=
  match JsNum.sub b.2 a.2 with
  | .nan => true
  | .inf => false
  | .ninf => true
  | .num q => q ≤ 0

/-- Retriever.reciprocalRankFusion (src/unnamed/part_001): fuse two ranked
lists with Reciprocal Rank Fusion, order by descending fused score, and
attach the metadata recorded for each id. -/
def Retriever.reciprocalRankFusion (k : ℚ) (list1 list2 : List SearchResult) :
    List SearchResult :=
  let st1 := Retriever.fusionLoop Retriever.LEXICAL_WEIGHT k true list1 0 ([], [])
  let st := Retriever.fusionLoop Retriever.SEMANTIC_WEIGHT k false list2 0 st1
  (stableSort Retriever.fusionLe st.1).map (fun e =>
    match alookup st.2 e.1 with
    | some doc => { doc with score := e.2 }
    | none => { id := e.1, score := e.2 })

/-- Retriever.retrieve, first copy (src/unnamed/part_001, lines 21-46):
the two branches are joined with `Promise.allSettled`, a rejected branch
degrades to the empty list, and the fused list is returned. -/
def Retriever.retrieve (k : ℚ)
    (lexicalResult semanticResult : Except String (List SearchResult)) :
    List SearchResult :=
  let lexical := match lexicalResult with | .ok v => v | .error _ => []
  let semantic := match semanticResult with | .ok v => v | .error _ => []
  Retriever.reciprocalRankFusion k lexical semantic

/-- Retriever.retrieve, second copy (src/unnamed/part_001, lines 99-110):
the two branches are joined with `Promise.all`, so a rejected branch
rejects the whole call with that branch's reason. -/
def Retriever.retrievePromiseAll (k : ℚ)
    (lexicalResult semanticResult : Except String (List SearchResult)) :
    Except String (List SearchResult) :=
  match lexicalResult with
  | .error e => .error e
  | .ok lexical =>
    match semanticResult with
    | .error e => .error e
    | .ok semantic => .ok (Retriever.reciprocalRankFusion k lexical semantic)

/-- The score carried by the element of `l` having the given id, if any. -/
def scoreOfId (l : List SearchResult) (id : String) : Option JsNum :=
  (l.find? (fun d => d.id == id)).map SearchResult.score

theorem fusionLoop_scores_alookup_notMem (w k : ℚ) (ow : Bool) (id : String) :
    ∀ (l : List SearchResult) (r : ℕ)
      (st : List (String × JsNum) × List (String × SearchResult)),
      id ∉ l.map SearchResult.id →
      alookup (Retriever.fusionLoop w k ow l r st).1 id = alookup st.1 id := by
  intro l
  induction l with
  | nil => intro r st _; rfl
  | cons d rest ih =>
    intro r st h
    simp only [List.map_cons, List.mem_cons] at h
    push_neg at h
    obtain ⟨hne, hrest⟩ := h
    obtain ⟨scores, docs⟩ := st
    rw [Retriever.fusionLoop]
    rw [ih _ _ hrest]
    simp [alookup_mapSet, hne]

theorem fusionLoop_scores_alookup_once (w k : ℚ) (ow : Bool) (d : SearchResult) :
    ∀ (l₁ l₂ : List SearchResult) (r : ℕ)
      (st : List (String × JsNum) × List (String × SearchResult)),
      d.id ∉ l₁.map SearchResult.id → d.id ∉ l₂.map SearchResult.id →
      alookup (Retriever.fusionLoop w k ow (l₁ ++ d :: l₂) r st).1 d.id =
        some (JsNum.add ((alookup st.1 d.id).getD (.num 0))
          (JsNum.div (.num w) (.num (k + ((r + l₁.length : ℕ) : ℚ) + 1)))) := by
  intro l₁
  induction l₁ with
  | nil =>
    intro l₂ r st _ h₂
    obtain ⟨scores, docs⟩ := st
    simp only [List.nil_append]
    rw [Retriever.fusionLoop]
    rw [fusionLoop_scores_alookup_notMem w k ow d.id l₂ _ _ h₂]
    simp [alookup_mapSet]
  | cons a l₁' ih =>
    intro l₂ r st h₁ h₂
    simp only [List.map_cons, List.mem_cons] at h₁
    push_neg at h₁
    obtain ⟨hne, h₁'⟩ := h₁
    obtain ⟨scores, docs⟩ := st
    simp only [List.cons_append]
    rw [Retriever.fusionLoop]
    rw [ih l₂ (r + 1) _ h₁' h₂]
    rw [alookup_mapSet]
    simp only [if_neg hne]
    have harith : k + (((r + 1) + l₁'.length : ℕ) : ℚ) + 1 =
        k + (((r + (a :: l₁').length : ℕ)) : ℚ) + 1 := by
      simp only [List.length_cons]
      push_cast
      ring
    rw [harith]

theorem fusionLoop_docs_wf (w k : ℚ) (ow : Bool) :
    ∀ (l : List SearchResult) (r : ℕ)
      (st : List (String × JsNum) × List (String × SearchResult)),
      (∀ p ∈ st.2, (p : String × SearchResult).2.id = p.1) →
      ∀ p ∈ (Retriever.fusionLoop w k ow l r st).2, p.2.id = p.1 := by
  intro l
  induction l with
  | nil => intro r st h; exact h
  | cons d rest ih =>
    intro r st h
    obtain ⟨scores, docs⟩ := st
    rw [Retriever.fusionLoop]
    apply ih
    intro p hp
    simp only at hp
    by_cases how : ow
    · simp only [how, if_pos] at hp
      rcases mem_mapSet hp with h1 | h1
      · subst h1; rfl
      · exact h _ h1
    · simp only [how, if_neg, Bool.false_eq_true, if_false] at hp
      by_cases hs : (alookup docs d.id).isSome
      · simp only [hs, if_pos] at hp
        exact h _ hp
      · simp only [hs, Bool.false_eq_true, if_false] at hp
        rcases mem_mapSet hp with h1 | h1
        · subst h1; rfl
        · exact h _ h1

theorem fusionLoop_scores_nodup (w k : ℚ) (ow : Bool) :
    ∀ (l : List SearchResult) (r : ℕ)
      (st : List (String × JsNum) × List (String × SearchResult)),
      (st.1.map Prod.fst).Nodup →
      ((Retriever.fusionLoop w k ow l r st).1.map Prod.fst).Nodup := by
  intro l
  induction l with
  | nil => intro r st h; exact h
  | cons d rest ih =>
    intro r st h
    obtain ⟨scores, docs⟩ := st
    rw [Retriever.fusionLoop]
    exact ih _ _ (nodup_keys_mapSet h)

theorem scoreOfId_reciprocalRankFusion {k : ℚ} {list1 list2 : List SearchResult}
    {id : String} {v : JsNum}
    (h : alookup
      (Retriever.fusionLoop Retriever.SEMANTIC_WEIGHT k false list2 0
        (Retriever.fusionLoop Retriever.LEXICAL_WEIGHT k true list1 0 ([], []))).1
      id = some v) :
    scoreOfId (Retriever.reciprocalRankFusion k list1 list2) id = some v := by
  classical
  set st := Retriever.fusionLoop Retriever.SEMANTIC_WEIGHT k false list2 0
    (Retriever.fusionLoop Retriever.LEXICAL_WEIGHT k true list1 0 ([], [])) with hst
  have hnd : (st.1.map Prod.fst).Nodup := by
    apply fusionLoop_scores_nodup
    apply fusionLoop_scores_nodup
    simp
  have hwf : ∀ p ∈ st.2, (p : String × SearchResult).2.id = p.1 := by
    apply fusionLoop_docs_wf
    apply fusionLoop_docs_wf
    simp
  have hmem : (id, v) ∈ st.1 := mem_of_alookup_eq_some h
  have hperm : (stableSort Retriever.fusionLe st.1).Perm st.1 := stableSort_perm _ _
  have hnd' : ((stableSort Retriever.fusionLe st.1).map Prod.fst).Nodup :=
    ((hperm.map Prod.fst).nodup_iff).mpr hnd
  have hmem' : (id, v) ∈ stableSort Retriever.fusionLe st.1 := hperm.mem_iff.mpr hmem
  have hfind := find?_assoc_of_nodup hnd' hmem'
  show ((stableSort Retriever.fusionLe st.1).map _ |>.find? _ |>.map _) = some v
  rw [List.find?_map]
  have hpred : ((fun d : SearchResult => d.id == id) ∘ fun e : String × JsNum =>
      match alookup st.2 e.1 with
      | some doc => { doc with score := e.2 }
      | none => { id := e.1, score := e.2 }) = fun e : String × JsNum => e.1 == id := by
    funext e
    simp only [Function.comp_apply]
    cases hd : alookup st.2 e.1 with
    | some doc =>
      have : doc.id = e.1 := hwf _ (mem_of_alookup_eq_some hd)
      simp [this]
    | none => simp
  rw [hpred, hfind]
  cases hd : alookup st.2 id <;> simp [hd]

theorem exists_decomp_of_getElem_count_one :
    ∀ (l : List SearchResult) (r : ℕ) (d : SearchResult),
      l[r]? = some d → (l.map SearchResult.id).count d.id = 1 →
      ∃ l₁ l₂, l = l₁ ++ d :: l₂ ∧ l₁.length = r ∧
        d.id ∉ l₁.map SearchResult.id ∧ d.id ∉ l₂.map SearchResult.id := by
  intro l
  induction l with
  | nil => intro r d h; simp at h
  | cons a rest ih =>
    intro r d hget hcount
    cases r with
    | zero =>
      have had : a = d := by simpa using hget
      subst had
      have hrest : (rest.map SearchResult.id).count a.id = 0 := by
        rw [List.map_cons, List.count_cons] at hcount
        simpa using hcount
      exact ⟨[], rest, by simp, rfl, by simp, List.count_eq_zero.mp hrest⟩
    | succ r' =>
      simp only [List.getElem?_cons_succ] at hget
      have hdmem : d ∈ rest := List.getElem?_mem hget
      have hidmem : d.id ∈ rest.map SearchResult.id := List.mem_map_of_mem _ hdmem
      have hpos : 0 < (rest.map SearchResult.id).count d.id :=
        List.count_pos_iff.mpr hidmem
      rw [List.map_cons, List.count_cons] at hcount
      by_cases hid : a.id = d.id
      · exfalso
        have hb : (a.id == d.id) = true := beq_iff_eq.mpr hid
        simp only [hb, if_true] at hcount
        omega
      · have hid' : ¬(d.id = a.id) := fun h => hid h.symm
        have hcount' : (rest.map SearchResult.id).count d.id = 1 := by
          have hb : (a.id == d.id) = false := beq_eq_false_iff_ne.mpr hid
          simp only [hb, Bool.false_eq_true, if_false] at hcount
          omega
        obtain ⟨l₁, l₂, hsplit, hlen, hn1, hn2⟩ := ih r' d hget hcount'
        refine ⟨a :: l₁, l₂, by simp [hsplit], by simp [hlen], ?_, hn2⟩
        simp only [List.map_cons, List.mem_cons]
        push_neg
        exact ⟨hid', hn1⟩

/-- Claim C1: in Reciprocal Rank Fusion with fusion constant `k`, a document
occurring only in the lexical list at 0-indexed rank `r` gets fused score
exactly `0.6 / (k + r + 1)`; a document occurring only in the semantic list
at rank `r` gets exactly `0.4 / (k + r + 1)`; a document occurring in both
lists gets the sum of the two contributions. -/
theorem claim_C1_rrf_fused_scores :
    (∀ (k : ℚ) (list1 list2 : List SearchResult) (d : SearchResult) (r : ℕ),
      list1[r]? = some d →
      (list1.map SearchResult.id).count d.id = 1 →
      d.id ∉ list2.map SearchResult.id →
      k + (r : ℚ) + 1 ≠ 0 →
      scoreOfId (Retriever.reciprocalRankFusion k list1 list2) d.id =
        some (.num (Retriever.LEXICAL_WEIGHT / (k + (r : ℚ) + 1)))) ∧
    (∀ (k : ℚ) (list1 list2 : List SearchResult) (d : SearchResult) (r : ℕ),
      list2[r]? = some d →
      (list2.map SearchResult.id).count d.id = 1 →
      d.id ∉ list1.map SearchResult.id →
      k + (r : ℚ) + 1 ≠ 0 →
      scoreOfId (Retriever.reciprocalRankFusion k list1 list2) d.id =
        some (.num (Retriever.SEMANTIC_WEIGHT / (k + (r : ℚ) + 1)))) ∧
    (∀ (k : ℚ) (list1 list2 : List SearchResult) (d1 d2 : SearchResult) (r1 r2 : ℕ),
      list1[r1]? = some d1 →
      (list1.map SearchResult.id).count d1.id = 1 →
      list2[r2]? = some d2 →
      d2.id = d1.id →
      (list2.map SearchResult.id).count d1.id = 1 →
      k + (r1 : ℚ) + 1 ≠ 0 →
      k + (r2 : ℚ) + 1 ≠ 0 →
      scoreOfId (Retriever.reciprocalRankFusion k list1 list2) d1.id =
        some (.num (Retriever.LEXICAL_WEIGHT / (k + (r1 : ℚ) + 1) +
          Retriever.SEMANTIC_WEIGHT / (k + (r2 : ℚ) + 1)))) := by
  refine ⟨?_, ?_, ?_⟩
  · intro k list1 list2 d r hget hcount hnot2 hk
    obtain ⟨l₁, l₂, rfl, hlen, hn1, hn2⟩ :=
      exists_decomp_of_getElem_count_one list1 r d hget hcount
    apply scoreOfId_reciprocalRankFusion
    rw [fusionLoop_scores_alookup_notMem _ _ _ _ _ _ _ hnot2]
    rw [fusionLoop_scores_alookup_once _ _ _ _ l₁ l₂ 0 _ hn1 hn2]
    simp only [alookup, Option.getD_none, Nat.zero_add, hlen]
    simp [JsNum.add, JsNum.div, hk]
  · intro k list1 list2 d r hget hcount hnot1 hk
    obtain ⟨l₁, l₂, rfl, hlen, hn1, hn2⟩ :=
      exists_decomp_of_getElem_count_one list2 r d hget hcount
    apply scoreOfId_reciprocalRankFusion
    rw [fusionLoop_scores_alookup_once _ _ _ _ l₁ l₂ 0 _ hn1 hn2]
    rw [fusionLoop_scores_alookup_notMem _ _ _ _ _ _ _ hnot1]
    simp only [alookup, Option.getD_none, Nat.zero_add, hlen]
    simp [JsNum.add, JsNum.div, hk]
  · intro k list1 list2 d1 d2 r1 r2 hget1 hcount1 hget2 hid hcount2 hk1 hk2
    obtain ⟨l₁, l₂, rfl, hlen1, hn1a, hn1b⟩ :=
      exists_decomp_of_getElem_count_one list1 r1 d1 hget1 hcount1
    have hcount2' : (list2.map SearchResult.id).count d2.id = 1 := by
      rw [hid]; exact hcount2
    obtain ⟨m₁, m₂, rfl, hlen2, hn2a, hn2b⟩ :=
      exists_decomp_of_getElem_count_one list2 r2 d2 hget2 hcount2'
    apply scoreOfId_reciprocalRankFusion
    rw [show d1.id = d2.id from hid.symm]
    rw [fusionLoop_scores_alookup_once _ _ _ _ m₁ m₂ 0 _ hn2a hn2b]
    rw [hid]
    rw [fusionLoop_scores_alookup_once _ _ _ _ l₁ l₂ 0 _ hn1a hn1b]
    simp only [alookup, Option.getD_none, Nat.zero_add, hlen1, hlen2]
    simp [JsNum.add, JsNum.div, hk1, hk2]

/-- Witness for claim C1 at `k = 60` with lexical list `[a, b]` and
semantic list `[b, c]`. -/
theorem claim_C1_rrf_fused_scores_witness :
    scoreOfId (Retriever.reciprocalRankFusion 60
        [{ id := "a" }, { id := "b" }] [{ id := "b" }, { id := "c" }]) "a" =
      some (.num (Retriever.LEXICAL_WEIGHT / (60 + ((0 : ℕ) : ℚ) + 1))) ∧
    scoreOfId (Retriever.reciprocalRankFusion 60
        [{ id := "a" }, { id := "b" }] [{ id := "b" }, { id := "c" }]) "c" =
      some (.num (Retriever.SEMANTIC_WEIGHT / (60 + ((1 : ℕ) : ℚ) + 1))) ∧
    scoreOfId (Retriever.reciprocalRankFusion 60
        [{ id := "a" }, { id := "b" }] [{ id := "b" }, { id := "c" }]) "b" =
      some (.num (Retriever.LEXICAL_WEIGHT / (60 + ((1 : ℕ) : ℚ) + 1) +
        Retriever.SEMANTIC_WEIGHT / (60 + ((0 : ℕ) : ℚ) + 1))) := by
  refine ⟨?_, ?_, ?_⟩
  · exact claim_C1_rrf_fused_scores.1 60 [{ id := "a" }, { id := "b" }]
      [{ id := "b" }, { id := "c" }] { id := "a" } 0
      (by decide) (by decide) (by decide) (by norm_num)
  · exact claim_C1_rrf_fused_scores.2.1 60 [{ id := "a" }, { id := "b" }]
      [{ id := "b" }, { id := "c" }] { id := "c" } 1
      (by decide) (by decide) (by decide) (by norm_num)
  · exact claim_C1_rrf_fused_scores.2.2 60 [{ id := "a" }, { id := "b" }]
      [{ id := "b" }, { id := "c" }] { id := "b" } { id := "b" } 1 0
      (by decide) (by decide) (by decide) (by decide) (by decide)
      (by norm_num) (by norm_num)

/-- Claim C2, amended: in the `Promise.allSettled` copy of
Retriever.retrieve, a single failing branch is degraded to the empty list
and the call still returns the fusion of the surviving branch; the other,
`Promise.all`-based copy of Retriever.retrieve instead propagates the
failure (see the counterexample). -/
theorem claim_C2_retrieve_partial_failure (k : ℚ) (e : String)
    (lex sem : List SearchResult) :
    Retriever.retrieve k (.error e) (.ok sem) =
      Retriever.reciprocalRankFusion k [] sem ∧
    Retriever.retrieve k (.ok lex) (.error e) =
      Retriever.reciprocalRankFusion k lex [] :=
  ⟨rfl, rfl⟩

/-- Claim C2, counterexample: the `Promise.all` copy of Retriever.retrieve
(src/unnamed/part_001, lines 99-110) fails outright when only the lexical
branch fails, instead of degrading it to an empty list. -/
theorem claim_C2_counterexample :
    Retriever.retrievePromiseAll 60 (.error "lexical search failed")
      (.ok [{ id := "a" }]) = .error "lexical search failed" := rfl

/-- Reranker configuration (config.rag.reranker). -/
structure RerankerConfig where
  topK : ℕ
  minScore : ℚ
deriving DecidableEq, Repr

/-- Retriever configuration (config.rag.retriever). -/
structure RetrieverConfig where
  topK : ℕ
  fusionK : ℚ
deriving DecidableEq, Repr

/-- RAG configuration (config.rag). -/
structure RAGConfig where
  retriever : RetrieverConfig
  reranker : RerankerConfig
deriving DecidableEq, Repr

/-- The concrete configuration of the repository
(src/src/config/index.ts): retriever topK 50, fusionK 60, reranker
topK 5, minScore 0.01. -/
def snijRagConfig : RAGConfig :=
  { retriever := { topK := 50, fusionK := 60 },
    reranker := { topK := 5, minScore := 1 / 100 } }

/-- Reranker.extractKeywords: the stop-word set (Arabic, French, English). -/
def Reranker.stopWords : List String :=
  ["من", "في", "على", "إلى", "عن", "مع", "هذا", "هذه", "التي", "الذي",
   "ما", "هو", "هي",
   "le", "la", "les", "de", "du", "des", "un", "une", "et", "ou", "que",
   "qui", "dans", "pour", "avec", "sur", "par", "est", "sont",
   "the", "a", "an", "and", "or", "of", "to", "in", "for", "with", "on",
   "by", "is", "are"]

/-- The separator class of `split(/[\s,;:.!?]+/)` together with the two
Arabic separators present in the source character class. -/
def Reranker.keywordSep (c : Char) : Bool :=
  jsWhitespaceB c || c = ',' || c = ';' || c = ':' || c = '.' || c = '!' ||
  c = '?' || c = '،' || c = '؛'

/-- Reranker.extractKeywords (src/unnamed/part_002): lower-case, split on
separators, keep words longer than two characters that are not stop words. -/
def Reranker.extractKeywords (text : String) : List String :=
  ((splitRuns Reranker.keywordSep (text.toList.map Char.toLower)).map
    (fun w => String.mk w)).filter
    (fun w => decide (2 < w.length) && !(Reranker.stopWords.contains w))

/-- Accumulate decimal digits into a natural number. -/
def digitsToNat : List Char → ℕ → ℕ
  | [], acc => acc
  | c :: cs, acc => digitsToNat cs (acc * 10 + (c.toNat - 48))

/-- `parseInt(s, 10)`: skip leading whitespace, optional sign, then the
longest digit run; NaN when there is no digit. -/
def jsParseIntList (l : List Char) : JsNum :=
  let l' := l.dropWhile jsWhitespaceB
  match l' with
  | '-' :: r =>
    let digits := r.takeWhile Char.isDigit
    if digits.isEmpty then .nan else .num (-(digitsToNat digits 0 : ℚ))
  | '+' :: r =>
    let digits := r.takeWhile Char.isDigit
    if digits.isEmpty then .nan else .num (digitsToNat digits 0 : ℚ)
  | r =>
    let digits := r.takeWhile Char.isDigit
    if digits.isEmpty then .nan else .num (digitsToNat digits 0 : ℚ)

/-- The comparator order of `sort((a, b) => b.score - a.score)` on search
results (NaN comparator values count as zero). -/
def Reranker.rerankLe (a b : SearchResult) : Bool :=
  match JsNum.sub b.score a.score with
  | .nan => true
  | .inf => false
  | .ninf => true
  | .num q => q ≤ 0

/-- Reranker.rerank (src/unnamed/part_002, lines 58-92): add a
keyword-overlap bonus and a recency bonus to each score, drop candidates
below minScore, sort descending, truncate to topK. The current year of
`new Date()` is an explicit parameter. -/
def Reranker.rerank (cfg : RerankerConfig) (currentYear : ℤ)
    (question : String) (documents : List SearchResult) : List SearchResult :=
  let questionWords := Reranker.extractKeywords question
  let scored := documents.map (fun doc =>
    let content := (doc.title ++ " " ++ (doc.content.getD "")).toList.map Char.toLower
    let matchCount := (questionWords.filter (fun w => containsSub content w.toList)).length
    let score1 := JsNum.add doc.score
      (JsNum.mul
        (JsNum.div (.num (matchCount : ℚ)) (.num (questionWords.length : ℚ)))
        (.num (3 / 10)))
    let score2 :=
      if doc.date = "" then score1
      else
        JsNum.add score1
          (JsNum.mul
            (JsNum.jmax (.num 0)
              (JsNum.sub (.num 1)
                (JsNum.div
                  (JsNum.sub (.num (currentYear : ℚ))
                    (jsParseIntList (doc.date.toList.take 4)))
                  (.num 50))))
            (.num (1 / 10)))
    { doc with score := score2 })
  (stableSort Reranker.rerankLe
    (scored.filter (fun d => JsNum.jge d.score (.num cfg.minScore)))).take cfg.topK

theorem JsNum.add_nan (x : JsNum) : JsNum.add x .nan = .nan := by
  cases x <;> rfl

theorem JsNum.nan_add (x : JsNum) : JsNum.add .nan x = .nan := by
  cases x <;> rfl

theorem JsNum.jge_nan (x : JsNum) : JsNum.jge .nan x = false := by
  cases x <;> rfl

/-- Claim C8: the reranked list never exceeds the configured topK, and
every element it contains carries a recomputed score that passes the
minScore comparison. -/
theorem claim_C8_rerank_topK_minScore (cfg : RerankerConfig)
    (currentYear : ℤ) (question : String) (documents : List SearchResult) :
    (Reranker.rerank cfg currentYear question documents).length ≤ cfg.topK ∧
    ∀ d ∈ Reranker.rerank cfg currentYear question documents,
      JsNum.jge d.score (.num cfg.minScore) = true := by
  constructor
  · exact List.length_take_le _ _
  · intro d hd
    have h1 := List.mem_of_mem_take hd
    have h2 := (stableSort_perm Reranker.rerankLe _).mem_iff.mp h1
    exact (List.mem_filter.mp h2).2

/-- Claim C9: when the stop-word-filtered keyword set of the question is
empty, the keyword bonus divides by zero, every candidate score becomes
NaN, the minScore comparison fails, and rerank returns the empty list for
every non-empty candidate list. -/
theorem claim_C9_rerank_empty_keywords (cfg : RerankerConfig)
    (currentYear : ℤ) (question : String) (documents : List SearchResult)
    (hkw : Reranker.extractKeywords question = [])
    (hne : documents ≠ []) :
    Reranker.rerank cfg currentYear question documents = [] := by
  clear hne
  unfold Reranker.rerank
  rw [hkw]
  dsimp only
  suffices h : (documents.map (fun doc =>
      let content := (doc.title ++ " " ++ (doc.content.getD "")).toList.map Char.toLower
      let matchCount := (([] : List String).filter
        (fun w => containsSub content w.toList)).length
      let score1 := JsNum.add doc.score
        (JsNum.mul
          (JsNum.div (.num (matchCount : ℚ)) (.num (([] : List String).length : ℚ)))
          (.num (3 / 10)))
      let score2 :=
        if doc.date = "" then score1
        else
          JsNum.add score1
            (JsNum.mul
              (JsNum.jmax (.num 0)
                (JsNum.sub (.num 1)
                  (JsNum.div
                    (JsNum.sub (.num (currentYear : ℚ))
                      (jsParseIntList (doc.date.toList.take 4)))
                    (.num 50))))
              (.num (1 / 10)))
      { doc with score := score2 })).filter
        (fun d => JsNum.jge d.score (.num cfg.minScore)) = [] by
    rw [h]
    simp [stableSort]
  rw [List.filter_eq_nil_iff]
  intro d hd
  obtain ⟨doc, hdoc, rfl⟩ := List.mem_map.mp hd
  by_cases hdate : doc.date = ""
  · simp [hdate, JsNum.div, JsNum.mul, JsNum.add_nan, JsNum.nan_add, JsNum.jge_nan]
  · simp [hdate, JsNum.div, JsNum.mul, JsNum.add_nan, JsNum.nan_add, JsNum.jge_nan]

/-- Witness for claim C9: the question consisting of the single stop word
"que" has an empty keyword set, and rerank returns the empty list on a
one-candidate list under the repository configuration. -/
theorem claim_C9_rerank_empty_keywords_witness :
    Reranker.extractKeywords "que" = [] ∧
    ([{ id := "a" }] : List SearchResult) ≠ [] ∧
    Reranker.rerank snijRagConfig.reranker 2024 "que" [{ id := "a" }] = [] :=
  ⟨by decide, by decide,
    claim_C9_rerank_empty_keywords snijRagConfig.reranker 2024 "que"
      [{ id := "a" }] (by decide) (by decide)⟩

/-- RAGAgent.executeStream, cache-hit replay (src/src/core/agents/rag-agent.ts,
lines 279-299): the cached answer is split on single spaces and one token
event is emitted per segment, with one space appended to each token. -/
def RAGAgent.executeStreamCacheHitTokens (cachedAnswer : String) : List String :=
  (splitCh ' ' cachedAnswer.toList).map (fun w => String.mk (w ++ [' ']))

theorem splitCh_ne_nil (sep : Char) (l : List Char) : splitCh sep l ≠ [] := by
  cases l with
  | nil => simp [splitCh]
  | cons c cs =>
    by_cases h : c = sep
    · simp [splitCh, h]
    · simp only [splitCh, if_neg h]
      cases splitCh sep cs <;> simp

theorem splitCh_map_append_join (sep : Char) :
    ∀ l : List Char,
      ((splitCh sep l).map (fun w => w ++ [sep])).flatten = l ++ [sep] := by
  intro l
  induction l with
  | nil => simp [splitCh]
  | cons c cs ih =>
    by_cases h : c = sep
    · subst h
      simp only [splitCh, if_true, eq_self_iff_true, List.map_cons,
        List.flatten_cons, List.nil_append]
      simp [ih]
    · simp only [splitCh, if_neg h]
      cases hs : splitCh sep cs with
      | nil => exact absurd hs (splitCh_ne_nil sep cs)
      | cons w ws =>
        rw [hs] at ih
        simp only [List.map_cons, List.flatten_cons] at ih ⊢
        rw [List.cons_append, List.cons_append]
        rw [ih]
        simp

theorem foldl_append_data :
    ∀ (ts : List String) (acc : String),
      (ts.foldl (· ++ ·) acc).data = acc.data ++ (ts.map String.data).flatten := by
  intro ts
  induction ts with
  | nil => intro acc; simp
  | cons t rest ih =>
    intro acc
    simp only [List.foldl_cons, ih, List.map_cons, List.flatten_cons]
    simp

/-- Claim C10: on a response-cache hit, the concatenation of all emitted
token texts equals the cached answer followed by exactly one trailing
space, and in particular never equals the cached answer itself. -/
theorem claim_C10_stream_cache_hit_tokens (answer : String) :
    String.join (RAGAgent.executeStreamCacheHitTokens answer) = answer ++ " " ∧
    answer ++ " " ≠ answer := by
  constructor
  · apply String.ext
    show (List.foldl (· ++ ·) "" (RAGAgent.executeStreamCacheHitTokens answer)).data =
      (answer ++ " ").data
    rw [foldl_append_data]
    have h2 : ((RAGAgent.executeStreamCacheHitTokens answer).map String.data) =
        (splitCh ' ' answer.data).map (fun w => w ++ [' ']) := by
      unfold RAGAgent.executeStreamCacheHitTokens
      rw [List.map_map]
      rfl
    rw [h2, splitCh_map_append_join]
    rfl
  · intro h
    have hlen := congrArg String.length h
    simp [String.length_append] at hlen
    exact absurd hlen (by decide)

/-- The punctuation class stripped by the cache key normalization,
`replace(/[?!.,:;]/g, empty)`. -/
def punctB (c : Char) : Bool :=
  c = '?' || c = '!' || c = '.' || c = ',' || c = ':' || c = ';'

/-- ResponseCache.generateCacheKey, question normalization
(src/unnamed/part_004, lines 40-61): lower-case, trim, strip the
punctuation class, then collapse whitespace runs to single spaces --
in that order. -/
def ResponseCache.normalizeQuestion (question : String) : String :=
  String.mk (cwGo ((jsTrimList (question.toList.map Char.toLower)).filter
    (fun c => !punctB c)))

/-- `String.prototype.trim` on strings. -/
def jsTrimStr (s : String) : String := String.mk (jsTrimList s.toList)

theorem char_toNat_ofNat_of_lt {n : ℕ} (h : n < 55296) :
    (Char.ofNat n).toNat = n := by
  have hv : n.isValidChar := Or.inl h
  rw [Char.ofNat, dif_pos hv]
  simp [Char.ofNatAux, Char.toNat, UInt32.toNat]

theorem toLower_toLower (c : Char) : c.toLower.toLower = c.toLower := by
  simp only [Char.toLower]
  by_cases h : c.toNat ≥ 65 ∧ c.toNat ≤ 90
  · rw [if_pos h]
    have ht : (Char.ofNat (c.toNat + 32)).toNat = c.toNat + 32 :=
      char_toNat_ofNat_of_lt (by omega)
    rw [ht, if_neg (by omega)]
  · rw [if_neg h, if_neg h]

theorem toLower_of_not_upper {c : Char} (h : ¬(c.toNat ≥ 65 ∧ c.toNat ≤ 90)) :
    c.toLower = c := by
  simp only [Char.toLower]
  rw [if_neg h]

theorem mem_cwGo_or_skip :
    ∀ (m : List Char),
      (∀ c ∈ cwGo m, c = ' ' ∨ c ∈ m) ∧ (∀ c ∈ cwSkip m, c = ' ' ∨ c ∈ m) := by
  intro m
  induction m with
  | nil => simp [cwGo, cwSkip]
  | cons a as ih =>
    constructor
    · intro c hc
      by_cases hws : jsWhitespaceB a
      · simp only [cwGo, hws, if_true] at hc
        rcases List.mem_cons.mp hc with h | h
        · exact Or.inl h
        · rcases ih.2 c h with h' | h'
          · exact Or.inl h'
          · exact Or.inr (List.mem_cons_of_mem _ h')
      · simp only [cwGo, hws, Bool.false_eq_true, if_false] at hc
        rcases List.mem_cons.mp hc with h | h
        · exact Or.inr (by simp [h])
        · rcases ih.1 c h with h' | h'
          · exact Or.inl h'
          · exact Or.inr (List.mem_cons_of_mem _ h')
    · intro c hc
      by_cases hws : jsWhitespaceB a
      · simp only [cwSkip, hws, if_true] at hc
        rcases ih.2 c hc with h' | h'
        · exact Or.inl h'
        · exact Or.inr (List.mem_cons_of_mem _ h')
      · simp only [cwSkip, hws, Bool.false_eq_true, if_false] at hc
        rcases List.mem_cons.mp hc with h | h
        · exact Or.inr (by simp [h])
        · rcases ih.1 c h with h' | h'
          · exact Or.inl h'
          · exact Or.inr (List.mem_cons_of_mem _ h')

/-- Well-formed whitespace: every whitespace character is a plain space and
no two whitespace characters are adjacent. -/
def WsOk (l : List Char) : Prop :=
  (∀ c ∈ l, jsWhitespaceB c = true → c = ' ') ∧
  l.Chain' (fun a b => ¬(jsWhitespaceB a = true ∧ jsWhitespaceB b = true))

theorem wsOk_cwGo :
    ∀ (m : List Char),
      WsOk (cwGo m) ∧
      (WsOk (cwSkip m) ∧ ∀ c ∈ (cwSkip m).head?, jsWhitespaceB c = false) := by
  intro m
  induction m with
  | nil => refine ⟨⟨by simp [cwGo], by simp [cwGo]⟩, ⟨by simp [cwSkip], by simp [cwSkip]⟩, by simp [cwSkip]⟩
  | cons a as ih =>
    obtain ⟨⟨goMem, goChain⟩, ⟨skipMem, skipChain⟩, skipHead⟩ := ih
    by_cases hws : jsWhitespaceB a
    · constructor
      · constructor
        · intro c hc
          simp only [cwGo, hws, if_true] at hc
          rcases List.mem_cons.mp hc with h | h
          · intro _; exact h
          · exact skipMem c h
        · simp only [cwGo, hws, if_true]
          rw [List.chain'_cons']
          refine ⟨?_, skipChain⟩
          intro y hy
          have := skipHead y hy
          simp [this]
      · constructor
        · exact ⟨fun c hc => by
            simp only [cwSkip, hws, if_true] at hc
            exact skipMem c hc, by
            simp only [cwSkip, hws, if_true]
            exact skipChain⟩
        · intro c hc
          simp only [cwSkip, hws, if_true] at hc
          exact skipHead c hc
    · constructor
      · constructor
        · intro c hc
          simp only [cwGo, hws, Bool.false_eq_true, if_false] at hc
          rcases List.mem_cons.mp hc with h | h
          · intro hcw; subst h; exact absurd hcw (by simp [hws])
          · exact goMem c h
        · simp only [cwGo, hws, Bool.false_eq_true, if_false]
          rw [List.chain'_cons']
          refine ⟨?_, goChain⟩
          intro y _
          simp [hws]
      · constructor
        · exact ⟨fun c hc => by
            simp only [cwSkip, hws, Bool.false_eq_true, if_false] at hc
            rcases List.mem_cons.mp hc with h | h
            · intro hcw; subst h; exact absurd hcw (by simp [hws])
            · exact goMem c h, by
            simp only [cwSkip, hws, Bool.false_eq_true, if_false]
            rw [List.chain'_cons']
            refine ⟨?_, goChain⟩
            intro y _
            simp [hws]⟩
        · intro c hc
          simp only [cwSkip, hws, Bool.false_eq_true, if_false] at hc
          simp only [List.head?_cons, Option.mem_def, Option.some.injEq] at hc
          subst hc
          simp [hws]

theorem mem_of_mem_jsTrimList {l : List Char} {c : Char} (h : c ∈ jsTrimList l) :
    c ∈ l := by
  unfold jsTrimList at h
  rw [List.mem_reverse] at h
  have h1 := (List.dropWhile_suffix jsWhitespaceB).sublist.mem h
  rw [List.mem_reverse] at h1
  exact (List.dropWhile_suffix jsWhitespaceB).sublist.mem h1

theorem wsOk_jsTrimList {l : List Char} (h : WsOk l) : WsOk (jsTrimList l) := by
  obtain ⟨hmem, hchain⟩ := h
  constructor
  · intro c hc
    exact hmem c (mem_of_mem_jsTrimList hc)
  · unfold jsTrimList
    have h1 : (l.dropWhile jsWhitespaceB).Chain'
        (fun a b => ¬(jsWhitespaceB a = true ∧ jsWhitespaceB b = true)) :=
      hchain.suffix (List.dropWhile_suffix jsWhitespaceB)
    have h2 : ((l.dropWhile jsWhitespaceB).reverse).Chain'
        (fun a b => ¬(jsWhitespaceB a = true ∧ jsWhitespaceB b = true)) := by
      rw [List.chain'_reverse]
      exact h1.imp (fun a b hab => by
        simp only [flip]
        rw [and_comm]
        exact hab)
    have h3 := h2.suffix (List.dropWhile_suffix jsWhitespaceB)
    rw [List.chain'_reverse]
    exact h3.imp (fun a b hab => by
      simp only [flip]
      rw [and_comm]
      exact hab)

theorem cwGo_eq_self_of_wsOk :
    ∀ (l : List Char), WsOk l →
      cwGo l = l ∧ ((∀ c ∈ l.head?, jsWhitespaceB c = false) → cwSkip l = l) := by
  intro l
  induction l with
  | nil => intro _; exact ⟨rfl, fun _ => rfl⟩
  | cons a as ih =>
    intro h
    obtain ⟨hmem, hchain⟩ := h
    rw [List.chain'_cons'] at hchain
    obtain ⟨hhead, hchain'⟩ := hchain
    have hWsAs : WsOk as := ⟨fun c hc => hmem c (List.mem_cons_of_mem _ hc), hchain'⟩
    obtain ⟨ihgo, ihskip⟩ := ih hWsAs
    constructor
    · by_cases hws : jsWhitespaceB a
      · have ha : a = ' ' := hmem a (List.mem_cons_self _ _) hws
        subst ha
        have hskipped : cwSkip as = as := by
          apply ihskip
          intro c hc
          have := hhead c hc
          by_cases hwc : jsWhitespaceB c
          · exact absurd ⟨hws, hwc⟩ this
          · simpa using hwc
        simp only [cwGo, hws, if_true, hskipped]
      · simp only [cwGo, hws, Bool.false_eq_true, if_false, ihgo]
    · intro hh
      have hwsa : jsWhitespaceB a = false := hh a (by simp)
      simp only [cwSkip, hwsa, Bool.false_eq_true, if_false, ihgo]

theorem normalizeQuestion_normalizeQuestion (s : String) :
    ResponseCache.normalizeQuestion (ResponseCache.normalizeQuestion s) =
      jsTrimStr (ResponseCache.normalizeQuestion s) := by
  unfold ResponseCache.normalizeQuestion jsTrimStr
  set n := cwGo ((jsTrimList (s.toList.map Char.toLower)).filter (fun c => !punctB c))
    with hn
  have hmemn : ∀ c ∈ n, c = ' ' ∨
      c ∈ (jsTrimList (s.toList.map Char.toLower)).filter (fun c => !punctB c) :=
    (mem_cwGo_or_skip _).1
  have hlower : ∀ c ∈ n, Char.toLower c = c := by
    intro c hc
    rcases hmemn c hc with h | h
    · subst h; decide
    · have h1 := List.mem_of_mem_filter h
      have h2 := mem_of_mem_jsTrimList h1
      obtain ⟨c0, _, rfl⟩ := List.mem_map.mp h2
      exact toLower_toLower c0
  have hnopunct : ∀ c ∈ n, punctB c = false := by
    intro c hc
    rcases hmemn c hc with h | h
    · subst h; decide
    · have := List.of_mem_filter h
      simpa using this
  have hws : WsOk n := (wsOk_cwGo _).1
  have hmap : (String.mk n).toList.map Char.toLower = n := by
    show n.map Char.toLower = n
    calc n.map Char.toLower = n.map id := List.map_congr_left hlower
    _ = n := List.map_id n
  rw [hmap]
  have hfilter : (jsTrimList n).filter (fun c => !punctB c) = jsTrimList n := by
    rw [List.filter_eq_self]
    intro c hc
    have := hnopunct c (mem_of_mem_jsTrimList hc)
    simp [this]
  rw [hfilter]
  have hwstrim : WsOk (jsTrimList n) := wsOk_jsTrimList hws
  rw [(cwGo_eq_self_of_wsOk _ hwstrim).1]
  rfl

/-- Claim C6, counterexample: the cache key normalization is not
idempotent; on the input consisting of a letter, a space and a question
mark, the first pass leaves a trailing space that only the second pass
removes (the code trims before stripping punctuation). -/
theorem claim_C6_counterexample :
    ResponseCache.normalizeQuestion (ResponseCache.normalizeQuestion "a ?") ≠
      ResponseCache.normalizeQuestion "a ?" := by
  decide

/-- Claim C6, amended: normalizing twice equals trimming the once-normalized
string; hence normalization is idempotent exactly on the inputs whose
normal form carries no leading or trailing whitespace, and on such inputs
only. -/
theorem claim_C6_normalize_twice (s : String) :
    ResponseCache.normalizeQuestion (ResponseCache.normalizeQuestion s) =
      jsTrimStr (ResponseCache.normalizeQuestion s) :=
  normalizeQuestion_normalizeQuestion s

/-- Coerce to a signed 32-bit integer, as the JavaScript `|`/`&`/`<<`
operators do. -/
def int32wrap (x : ℤ) : ℤ := (x + 2 ^ 31) % 2 ^ 32 - 2 ^ 31

/-- The cache key hash loop: `hash = ((hash << 5) - hash) + charCode`
followed by `hash = hash & hash` (a 32-bit coercion), for each character. -/
def hashLoop : List Char → ℤ → ℤ
  | [], h => h
  | c :: cs, h => hashLoop cs (int32wrap (int32wrap (h * 32) - h + c.toNat))

/-- One base-36 digit, lower case, as in `Number.prototype.toString(36)`. -/
def b36digit (d : ℕ) : Char :=
  if d < 10 then Char.ofNat (48 + d) else Char.ofNat (87 + d)

/-- Base-36 digit expansion (fuelled, most significant digit first). -/
def b36go : ℕ → ℕ → List Char → List Char
  | 0, _, acc => acc
  | fuel + 1, n, acc =>
    if n = 0 then acc else b36go fuel (n / 36) (b36digit (n % 36) :: acc)

/-- `Math.abs(hash).toString(36)`. -/
def natToBase36 (n : ℕ) : String :=
  if n = 0 then "0" else String.mk (b36go 64 n [])

/-- ResponseCache.generateCacheKey (src/unnamed/part_004, lines 40-61):
normalized question, language and the serialized filters are joined with
pipes and hashed. `JSON.stringify(filters)` is modelled by passing the
serialized filter string directly (`none` stands for absent filters and
yields the empty string). -/
def ResponseCache.generateCacheKey (question language : String)
    (filters : Option String) : String :=
  let normalizedQuestion := ResponseCache.normalizeQuestion question
  let filterStr := filters.getD ""
  let keyData := normalizedQuestion ++ "|" ++ language ++ "|" ++ filterStr
  "rag-cache:" ++ natToBase36 (hashLoop keyData.toList 0).natAbs

/-- The classification summary stored with a cached answer. -/
structure ClassificationSummary where
  domain : String
  intent : String
deriving DecidableEq, Repr

/-- A cached answer entry (src/unnamed/part_004, interface CachedResponse). -/
structure CachedResponse where
  answer : String
  sources : List Source
  confidence : JsNum
  language : String
  classification : ClassificationSummary
  cachedAt : ℤ
  hitCount : ℕ
deriving DecidableEq, Repr

/-- The `response` argument of ResponseCache.set. -/
structure CacheSetRequest where
  answer : String
  sources : List Source
  confidence : JsNum
  classification : ClassificationSummary
deriving DecidableEq, Repr

/-- MIN_CONFIDENCE_TO_CACHE = 0.4 (src/unnamed/part_004, line 26). -/
def MIN_CONFIDENCE_TO_CACHE : ℚ := 2 / 5

/-- ResponseCache.get (src/unnamed/part_004, lines 66-98): a hit increments
the entry hit count, writes it back, and returns the updated entry; a miss
returns nothing. The KV store is an explicit association list; TTLs and the
in-memory statistics are not modelled. -/
def ResponseCache.get (kv : List (String × CachedResponse))
    (question language : String) (filters : Option String) :
    Option CachedResponse × List (String × CachedResponse) :=
  let key := ResponseCache.generateCacheKey question language filters
  match alookup kv key with
  | some cached =>
    let cached' := { cached with hitCount := cached.hitCount + 1 }
    (some cached', mapSet kv key cached')
  | none => (none, kv)

/-- ResponseCache.set (src/unnamed/part_004, lines 103-146): skip when the
confidence is below the minimum or the sources are empty, otherwise store a
fresh entry with hitCount 0 under the generated key. `Date.now()` is the
explicit `now` parameter. -/
def ResponseCache.set (kv : List (String × CachedResponse))
    (question language : String) (response : CacheSetRequest)
    (filters : Option String) (now : ℤ) : List (String × CachedResponse) :=
  if JsNum.jlt response.confidence (.num MIN_CONFIDENCE_TO_CACHE) then kv
  else if response.sources.length = 0 then kv
  else
    mapSet kv (ResponseCache.generateCacheKey question language filters)
      { answer := response.answer, sources := response.sources,
        confidence := response.confidence, language := language,
        classification := response.classification, cachedAt := now,
        hitCount := 0 }

/-- Claim C5: storing a sufficiently confident, sourced answer makes it
retrievable by any question with the same normal form (the returned entry
carries hitCount 1, having been incremented by the hit); and a set below
the confidence threshold leaves the store untouched, so that answer is
never retrievable. -/
theorem claim_C5_cache_set_get :
    (∀ (kv : List (String × CachedResponse)) (q q' language : String)
      (filters : Option String) (resp : CacheSetRequest) (now : ℤ) (c : ℚ),
      ResponseCache.normalizeQuestion q' = ResponseCache.normalizeQuestion q →
      resp.confidence = .num c →
      MIN_CONFIDENCE_TO_CACHE ≤ c →
      resp.sources ≠ [] →
      (ResponseCache.get (ResponseCache.set kv q language resp filters now)
        q' language filters).1 =
        some { answer := resp.answer, sources := resp.sources,
               confidence := resp.confidence, language := language,
               classification := resp.classification, cachedAt := now,
               hitCount := 1 }) ∧
    (∀ (kv : List (String × CachedResponse)) (q language : String)
      (filters : Option String) (resp : CacheSetRequest) (now : ℤ) (c : ℚ),
      resp.confidence = .num c →
      c < MIN_CONFIDENCE_TO_CACHE →
      ResponseCache.set kv q language resp filters now = kv) := by
  constructor
  · intro kv q q' language filters resp now c hnorm hconf hge hsrc
    have hkey : ResponseCache.generateCacheKey q' language filters =
        ResponseCache.generateCacheKey q language filters := by
      unfold ResponseCache.generateCacheKey
      rw [hnorm]
    have hlt : JsNum.jlt resp.confidence (.num MIN_CONFIDENCE_TO_CACHE) = false := by
      rw [hconf]
      simp [JsNum.jlt]
      exact hge
    have hlen : ¬(resp.sources.length = 0) := by
      simpa [List.length_eq_zero] using hsrc
    unfold ResponseCache.set
    rw [hlt]
    simp only [Bool.false_eq_true, if_false, hlen]
    unfold ResponseCache.get
    dsimp only
    rw [hkey, alookup_mapSet]
    simp
  · intro kv q language filters resp now c hconf hlt
    unfold ResponseCache.set
    rw [hconf]
    have : JsNum.jlt (.num c) (.num MIN_CONFIDENCE_TO_CACHE) = true := by
      simpa [JsNum.jlt] using hlt
    rw [this]
    simp

/-- A concrete source used by the C5 witness. -/
def c5Source : Source :=
  { id := "s1", type := "loi", title := "Code TVA", numero := "88-61",
    date := "1988-06-02", relevantPassage := "La TVA", url := "/fr/document/s1" }

/-- A concrete high-confidence cache write request used by the C5 witness. -/
def c5Req : CacheSetRequest :=
  { answer := "La TVA est une taxe.", sources := [c5Source],
    confidence := .num (1 / 2),
    classification := { domain := "fiscal", intent := "definition" } }

/-- A concrete low-confidence cache write request used by the C5 witness. -/
def c5ReqLow : CacheSetRequest :=
  { answer := "La TVA est une taxe.", sources := [],
    confidence := .num (1 / 5),
    classification := { domain := "fiscal", intent := "definition" } }

/-- Witness for claim C5: a question and a differently punctuated variant
with the same normal form; a set at confidence 0.5 with one source is
retrieved by the variant, and a set at confidence 0.2 is a no-op. -/
theorem claim_C5_cache_set_get_witness :
    (ResponseCache.get
      (ResponseCache.set [] "Quelle est la TVA?" "fr" c5Req none 1000)
      "quelle   est la tva" "fr" none).1 =
      some { answer := c5Req.answer, sources := c5Req.sources,
             confidence := c5Req.confidence, language := "fr",
             classification := c5Req.classification, cachedAt := 1000,
             hitCount := 1 } ∧
    ResponseCache.set [] "Quelle est la TVA?" "fr" c5ReqLow none 1000 = [] := by
  constructor
  · exact claim_C5_cache_set_get.1 [] "Quelle est la TVA?" "quelle   est la tva"
      "fr" none c5Req 1000 (1 / 2) (by decide) rfl (by norm_num [MIN_CONFIDENCE_TO_CACHE]) (by decide)
  · exact claim_C5_cache_set_get.2 [] "Quelle est la TVA?" "fr" none c5ReqLow 1000
      (1 / 5) rfl (by norm_num [MIN_CONFIDENCE_TO_CACHE])

/-- The apostrophe character, written via its code point. -/
def apc : Char := Char.ofNat 39

/-- The apostrophe as a one-character string; several French patterns and
messages contain it. -/
def ap : String := String.mk [apc]

/-- The twelve legal domains of the query classifier
(src/src/core/services/query-classifier.ts). -/
inductive LegalDomain where
  | travail | commercial | fiscal | civil | penal | administratif
  | constitutionnel | famille | environnement | propriete | donnees | general
deriving DecidableEq, Repr

/-- The ten query intents of the query classifier. -/
inductive QueryIntent where
  | definition | procedure | droits | obligations | sanctions | conditions
  | comparison | verification | temporel | information
deriving DecidableEq, Repr

/-- The regex word-character class `\w` (ASCII letters, digits, underscore). -/
def jsWordChar (c : Char) : Bool := c.isAlphanum || c = '_'

/-- Case-insensitive whole-word test, modelling a `\b w \b` regex under the
`i` flag: the lowered subject is split on non-word characters and the word
must appear as a whole segment. -/
def wordCI (s w : String) : Bool :=
  ((splitRuns (fun c => !jsWordChar c) (s.toList.map Char.toLower)).map
    (fun x => String.mk x)).contains w

/-- Domain patterns for travail. Original regexes (i-flag on the first
three): emploi|employ[ee-acute]|travail|travailleur|salari[ee-acute]|
cong[ee-acute]|licenciement|contrat de travail ; patron|employeur|greve|
syndica|heures? de travail|salaire|prime ; CNSS|securite sociale|retraite|
pension ; and one Arabic alternation. -/
def travailPatterns : List (String → Bool) :=
  [fun q => ciContains q "emploi" || ciContains q "employé" || ciContains q "employe" ||
     ciContains q "travail" || ciContains q "travailleur" || ciContains q "salarié" ||
     ciContains q "salarie" || ciContains q "congé" || ciContains q "conge" ||
     ciContains q "licenciement" || ciContains q "contrat de travail",
   fun q => ciContains q "patron" || ciContains q "employeur" || ciContains q "grève" ||
     ciContains q "syndica" || ciContains q "heure de travail" ||
     ciContains q "heures de travail" || ciContains q "salaire" || ciContains q "prime",
   fun q => ciContains q "cnss" || ciContains q "sécurité sociale" ||
     ciContains q "retraite" || ciContains q "pension",
   fun q => strContains q "عقد العمل" || strContains q "عامل" || strContains q "طرد" ||
     strContains q "أجر" || strContains q "إضراب" || strContains q "نقابة"]

/-- Domain patterns for commercial. -/
def commercialPatterns : List (String → Bool) :=
  [fun q => ciContains q "société" || ciContains q "entreprise" || ciContains q "commerce" ||
     ciContains q "commerçant" || ciContains q "faillite" || ciContains q "registre",
   fun q => ciContains q "sarl" || ciContains q "sa" || ciContains q "société anonyme" ||
     ciContains q "associé" || ciContains q "actionnaire" || ciContains q "dividende",
   fun q => strContains q "شركة" || strContains q "تجارة" || strContains q "تاجر" ||
     strContains q "إفلاس" || strContains q "سجل تجاري"]

/-- Domain patterns for fiscal; the last French alternative is the
word-bounded \bIS\b under the i flag. -/
def fiscalPatterns : List (String → Bool) :=
  [fun q => ciContains q "impôt" || ciContains q "taxe" || ciContains q "tva" ||
     ciContains q "fiscal" || ciContains q "déclaration" || ciContains q "irpp" ||
     wordCI q "is",
   fun q => ciContains q "contribuable" || ciContains q "exonération" ||
     ciContains q "déduction" || ciContains q "bénéfice imposable",
   fun q => strContains q "ضريبة" || strContains q "ضرائب" || strContains q "إعفاء" ||
     strContains q "تصريح ضريبي"]

/-- Domain patterns for civil. -/
def civilPatterns : List (String → Bool) :=
  [fun q => ciContains q "propriété" || ciContains q "contrat" || ciContains q "obligation" ||
     ciContains q "responsabilité civile" || ciContains q "dommage",
   fun q => ciContains q "créancier" || ciContains q "débiteur" || ciContains q "hypothèque" ||
     ciContains q "gage" || ciContains q "cautionnement",
   fun q => strContains q "ملكية" || strContains q "عقد" || strContains q "التزام" ||
     strContains q "مسؤولية مدنية" || strContains q "ضمان"]

/-- Domain patterns for penal. -/
def penalPatterns : List (String → Bool) :=
  [fun q => ciContains q "infraction" || ciContains q "délit" || ciContains q "crime" ||
     ciContains q "peine" || ciContains q "prison" || ciContains q "amende",
   fun q => ciContains q "vol" || ciContains q "escroquerie" ||
     ciContains q "abus de confiance" || ciContains q "violence",
   fun q => strContains q "جريمة" || strContains q "جنحة" || strContains q "عقوبة" ||
     strContains q "سجن" || strContains q "خطية"]

/-- Domain patterns for administratif. -/
def administratifPatterns : List (String → Bool) :=
  [fun q => ciContains q "administration" || ciContains q "fonctionnaire" ||
     ciContains q "marché public" || ciContains q "permis de construire",
   fun q => ciContains q "autorisation" || ciContains q "licence" ||
     ciContains q "agrément" || ciContains q "tribunal administratif",
   fun q => ciContains q "urbanisme" || ciContains q "lotissement" ||
     ciContains q "aménagement" || ciContains q "collectivité",
   fun q => strContains q "إدارة" || strContains q "موظف" || strContains q "صفقة عمومية" ||
     strContains q "رخصة" || strContains q "ترخيص"]

/-- Domain patterns for constitutionnel. -/
def constitutionnelPatterns : List (String → Bool) :=
  [fun q => ciContains q "constitution" || ciContains q "droit fondamental" ||
     ciContains q "liberté" || ciContains q "élection" || ciContains q "vote",
   fun q => ciContains q "président" || ciContains q "parlement" ||
     ciContains q "assemblée" || ciContains q "référendum",
   fun q => strContains q "دستور" || strContains q "حقوق أساسية" || strContains q "حرية" ||
     strContains q "انتخابات"]

/-- Domain patterns for famille. -/
def famillePatterns : List (String → Bool) :=
  [fun q => ciContains q "mariage" || ciContains q "divorce" ||
     ciContains q "pension alimentaire" || ciContains q "garde" || ciContains q "héritage",
   fun q => ciContains q "succession" || ciContains q "tutelle" ||
     ciContains q "adoption" || ciContains q "filiation",
   fun q => strContains q "زواج" || strContains q "طلاق" || strContains q "نفقة" ||
     strContains q "حضانة" || strContains q "ميراث" || strContains q "إرث"]

/-- Domain patterns for environnement; the second pattern contains the
apostrophe form "protection de l(ap)environnement". -/
def environnementPatterns : List (String → Bool) :=
  [fun q => ciContains q "environnement" || ciContains q "pollution" ||
     ciContains q "déchet" || ciContains q "énergie renouvelable",
   fun q => ciContains q "impact environnemental" || ciContains q "réserve naturelle" ||
     ciContains q ("protection de l" ++ ap ++ "environnement"),
   fun q => ciContains q "écologie" || ciContains q "émission" ||
     ciContains q "carbone" || ciContains q "recyclage",
   fun q => strContains q "بيئة" || strContains q "تلوث" || strContains q "نفايات" ||
     strContains q "محمية طبيعية"]

/-- Domain patterns for propriete; the first pattern contains
"droit d(ap)auteur". -/
def proprietePatterns : List (String → Bool) :=
  [fun q => ciContains q "brevet" || ciContains q "marque" ||
     ciContains q ("droit d" ++ ap ++ "auteur") || ciContains q "propriété intellectuelle",
   fun q => ciContains q "contrefaçon" || ciContains q "licence" ||
     ciContains q "copyright" || ciContains q "invention",
   fun q => strContains q "براءة اختراع" || strContains q "علامة تجارية" ||
     strContains q "حقوق المؤلف"]

/-- Domain patterns for donnees. -/
def donneesPatterns : List (String → Bool) :=
  [fun q => ciContains q "données personnelles" || ciContains q "vie privée" ||
     ciContains q "inpdp" || ciContains q "protection des données",
   fun q => ciContains q "consentement" || ciContains q "traitement" ||
     ciContains q "fichier" || ciContains q "rgpd",
   fun q => strContains q "معطيات شخصية" || strContains q "حماية المعطيات" ||
     strContains q "خصوصية"]

/-- The pattern table keyed by domain; general has no patterns. -/
def domainPatterns : LegalDomain → List (String → Bool)
  | .travail => travailPatterns
  | .commercial => commercialPatterns
  | .fiscal => fiscalPatterns
  | .civil => civilPatterns
  | .penal => penalPatterns
  | .administratif => administratifPatterns
  | .constitutionnel => constitutionnelPatterns
  | .famille => famillePatterns
  | .environnement => environnementPatterns
  | .propriete => proprietePatterns
  | .donnees => donneesPatterns
  | .general => []

/-- The iteration order of `Object.entries(domainPatterns)`: declaration
order of the table. -/
def domainEntries : List LegalDomain :=
  [.travail, .commercial, .fiscal, .civil, .penal, .administratif,
   .constitutionnel, .famille, .environnement, .propriete, .donnees, .general]

/-- The number of patterns of a domain the query matches. -/
def QueryClassifier.domainMatchCount (domain : LegalDomain) (query : String) : ℕ :=
  ((domainPatterns domain).filter (fun p => p query)).length

/-- One iteration of the detectDomain loop: take the new domain exactly
when it has strictly more matches than the best so far. -/
def QueryClassifier.domainStep (query : String) (best : LegalDomain × ℕ)
    (dom : LegalDomain) : LegalDomain × ℕ :=
  let cnt := QueryClassifier.domainMatchCount dom query
  if best.2 < cnt then (dom, cnt) else best

/-- QueryClassifier.detectDomain (lines 198-211): highest strictly-greater
match count wins, iterating in table order; default general. -/
def QueryClassifier.detectDomain (query : String) : LegalDomain :=
  (domainEntries.foldl (QueryClassifier.domainStep query) (LegalDomain.general, 0)).1

/-- Intent patterns for definition. The French regex expands the character
classes: qu(ap)est[- ]ce qu[e(ap)] gives four literal alternatives. -/
def definitionPatterns : List (String → Bool) :=
  [fun q => ciContains q ("qu" ++ ap ++ "est-ce que") ||
     ciContains q ("qu" ++ ap ++ "est-ce qu" ++ ap) ||
     ciContains q ("qu" ++ ap ++ "est ce que") ||
     ciContains q ("qu" ++ ap ++ "est ce qu" ++ ap) ||
     ciContains q ("c" ++ ap ++ "est quoi") || ciContains q "définition" ||
     ciContains q "signifie" || ciContains q "veut dire",
   fun q => strContains q "ما هو" || strContains q "ما هي" ||
     strContains q "ماذا يعني" || strContains q "تعريف"]

/-- Intent patterns for procedure. -/
def procedurePatterns : List (String → Bool) :=
  [fun q => ciContains q "comment faire" || ciContains q "procédure" ||
     ciContains q "démarche" || ciContains q "étapes" || ciContains q "obtenir" ||
     ciContains q "demander",
   fun q => strContains q "كيف أ" || strContains q "إجراءات" ||
     strContains q "خطوات" || strContains q "للحصول على"]

/-- Intent patterns for droits. -/
def droitsPatterns : List (String → Bool) :=
  [fun q => ciContains q "mes droits" || ciContains q "ai-je le droit" ||
     ciContains q "ai je le droit" || ciContains q "peut-on" ||
     ciContains q "peut on" || ciContains q "autorisé" || ciContains q "permis",
   fun q => strContains q "حقوقي" || strContains q "هل يحق لي" || strContains q "مسموح"]

/-- Intent patterns for obligations. -/
def obligationsPatterns : List (String → Bool) :=
  [fun q => ciContains q "obligé" || ciContains q "obligation" ||
     ciContains q "dois-je" || ciContains q "dois je" || ciContains q "faut-il" ||
     ciContains q "faut il" || ciContains q "tenu de" || ciContains q "devoir",
   fun q => strContains q "ملزم" || strContains q "واجب" || strContains q "هل يجب" ||
     strContains q "التزامات"]

/-- Intent patterns for sanctions. -/
def sanctionsPatterns : List (String → Bool) :=
  [fun q => ciContains q "sanction" || ciContains q "peine" || ciContains q "amende" ||
     ciContains q "risque" || ciContains q "punition" || ciContains q "condamn",
   fun q => strContains q "عقوبة" || strContains q "خطية" || strContains q "غرامة" ||
     strContains q "جزاء"]

/-- Intent patterns for conditions; the optional plural suffixes of
conditions? and criteres? are subsumed by stem containment. -/
def conditionsPatterns : List (String → Bool) :=
  [fun q => ciContains q "condition" || ciContains q "critère" ||
     ciContains q "requis" || ciContains q "nécessaire" || ciContains q "éligible" ||
     ciContains q "exigé",
   fun q => strContains q "شروط" || strContains q "متطلبات" || strContains q "معايير"]

/-- Intent patterns for comparison. -/
def comparisonPatterns : List (String → Bool) :=
  [fun q => ciContains q "différence" || ciContains q "comparer" ||
     ciContains q "versus" || ciContains q "vs" || ciContains q "par rapport",
   fun q => strContains q "الفرق بين" || strContains q "مقارنة"]

/-- Intent patterns for verification. -/
def verificationPatterns : List (String → Bool) :=
  [fun q => ciContains q "conforme" || ciContains q "légal" || ciContains q "valide" ||
     ciContains q "applicable" || ciContains q "en vigueur",
   fun q => strContains q "قانوني" || strContains q "ساري المفعول" || strContains q "صالح"]

/-- Intent patterns for temporel. -/
def temporelPatterns : List (String → Bool) :=
  [fun q => ciContains q "délai" || ciContains q "date limite" || ciContains q "quand" ||
     ciContains q "durée" || ciContains q "prescription" || ciContains q "échéance",
   fun q => strContains q "أجل" || strContains q "مهلة" || strContains q "متى" ||
     strContains q "مدة"]

/-- The intent pattern table; information is the catch-all with none. -/
def intentPatterns : QueryIntent → List (String → Bool)
  | .definition => definitionPatterns
  | .procedure => procedurePatterns
  | .droits => droitsPatterns
  | .obligations => obligationsPatterns
  | .sanctions => sanctionsPatterns
  | .conditions => conditionsPatterns
  | .comparison => comparisonPatterns
  | .verification => verificationPatterns
  | .temporel => temporelPatterns
  | .information => []

/-- The iteration order of `Object.entries(intentPatterns)`. -/
def intentEntries : List QueryIntent :=
  [.definition, .procedure, .droits, .obligations, .sanctions, .conditions,
   .comparison, .verification, .temporel, .information]

/-- QueryClassifier.detectIntent (lines 213-220): the first intent in table
order with any matching pattern; default information. -/
def QueryClassifier.detectIntent (query : String) : QueryIntent :=
  match intentEntries.find? (fun intent => (intentPatterns intent).any (fun p => p query)) with
  | some intent => intent
  | none => .information

/-- A small regex pattern language covering the constructs of the entity
regex battery: literals (optionally case-insensitive, stored lower case),
single character classes, sequencing, alternation, option, greedy class
star / plus / exact repetition, and one capture group. -/
inductive RPat where
  | lit : Bool → List Char → RPat
  | cls : (Char → Bool) → RPat
  | seq : RPat → RPat → RPat
  | alt : RPat → RPat → RPat
  | opt : RPat → RPat
  | star : (Char → Bool) → RPat
  | plus : (Char → Bool) → RPat
  | rep : (Char → Bool) → ℕ → RPat
  | grp : RPat → RPat

/-- Match a literal at the front of the input, returning the remainder. -/
def litHere (ci : Bool) : List Char → List Char → Option (List Char)
  | [], input => some input
  | _ :: _, [] => none
  | p :: ps, c :: cs =>
    if (if ci then c.toLower = p else c = p) then litHere ci ps cs else none

/-- Remainders after consuming a greedy run of class characters, longest
consumption first (for backtracking). -/
def classRemainders (p : Char → Bool) : List Char → List (List Char)
  | [] => [[]]
  | c :: cs => if p c then classRemainders p cs ++ [c :: cs] else [c :: cs]

/-- Try the continuation on each remainder in order. -/
def firstSome : List (List Char) → (List Char → Option β) → Option β
  | [], _ => none
  | r :: rs, k =>
    match k r with
    | some v => some v
    | none => firstSome rs k

/-- Consume exactly `n` class characters. -/
def repHere (p : Char → Bool) : ℕ → List Char → Option (List Char)
  | 0, input => some input
  | _ + 1, [] => none
  | n + 1, c :: cs => if p c then repHere p n cs else none

/-- Backtracking matcher in continuation style; the continuation receives
the remaining input and the current capture. -/
def mrun : RPat → List Char → Option (List Char) →
    (List Char → Option (List Char) → Option β) → Option β
  | .lit ci s, input, cap, k =>
    match litHere ci s input with
    | some rest => k rest cap
    | none => none
  | .cls p, input, cap, k =>
    match input with
    | [] => none
    | c :: cs => if p c then k cs cap else none
  | .seq a b, input, cap, k => mrun a input cap (fun rest cap' => mrun b rest cap' k)
  | .alt a b, input, cap, k =>
    match mrun a input cap k with
    | some v => some v
    | none => mrun b input cap k
  | .opt a, input, cap, k =>
    match mrun a input cap k with
    | some v => some v
    | none => k input cap
  | .star p, input, cap, k => firstSome (classRemainders p input) (fun rest => k rest cap)
  | .plus p, input, cap, k =>
    match input with
    | [] => none
    | c :: cs =>
      if p c then firstSome (classRemainders p cs) (fun rest => k rest cap) else none
  | .rep p n, input, cap, k =>
    match repHere p n input with
    | some rest => k rest cap
    | none => none
  | .grp a, input, cap, k =>
    mrun a input cap (fun rest _ => k rest (some (input.take (input.length - rest.length))))

/-- Anchored match attempt: consumed length and capture. -/
def matchAtFront (pat : RPat) (input : List Char) : Option (ℕ × Option (List Char)) :=
  mrun pat input none (fun rest cap => some (input.length - rest.length, cap))

/-- Global scan (`g` flag): walk the input, collecting non-overlapping
matches; fuelled by the input length. -/
def scanAll (pat : RPat) : ℕ → List Char → List (List Char × Option (List Char))
  | 0, _ => []
  | fuel + 1, input =>
    match input with
    | [] => []
    | _ :: rest =>
      match matchAtFront pat input with
      | some (0, _) => scanAll pat fuel rest
      | some (n + 1, cap) => (input.take (n + 1), cap) :: scanAll pat fuel (input.drop (n + 1))
      | none => scanAll pat fuel rest

/-- The values pushed per match: group 1 when present and non-empty,
otherwise the whole match (`if (match[1]) ... else if (match[0]) ...`). -/
def regexValues (pat : RPat) (q : String) : List String :=
  (scanAll pat q.toList.length q.toList).map (fun m =>
    match m.2 with
    | some cap => if cap.isEmpty then String.mk m.1 else String.mk cap
    | none => String.mk m.1)

/-- `[...new Set(values)]`: de-duplicate preserving first occurrences. -/
def jsSetDedup (l : List String) : List String :=
  l.foldl (fun acc s => if acc.contains s then acc else acc ++ [s]) []

/-- Concatenate a pattern list into a sequence. -/
def rcat (ps : List RPat) : RPat := ps.foldr RPat.seq (RPat.lit false [])

/-- Left-nested alternation of a head pattern and further alternatives. -/
def ralt (p : RPat) (ps : List RPat) : RPat := ps.foldl RPat.alt p

/-- The character class of a dash or slash. -/
def dashCls (c : Char) : Bool := c = '-' || c = '/'

/-- The class [.,]. -/
def dotCommaCls (c : Char) : Bool := c = '.' || c = ','

/-- The class [(degree)o] under the i flag. -/
def degOCls (c : Char) : Bool := c = '°' || c.toLower = 'o'

/-- Entity pattern, law numbers 1:
(?:loi|(Arabic qanun))\s*(?:n[(degree)o]?\s*)? then a captured group of four digits, a dash or slash and more digits (or the mirrored form), with gi. -/
def lawNumbersPat1 : RPat :=
  rcat [RPat.alt (RPat.lit true "loi".toList) (RPat.lit true "قانون".toList),
    RPat.star jsWhitespaceB,
    RPat.opt (rcat [RPat.lit true "n".toList, RPat.opt (RPat.cls degOCls),
      RPat.star jsWhitespaceB]),
    RPat.grp (RPat.alt
      (rcat [RPat.rep Char.isDigit 4, RPat.cls dashCls, RPat.plus Char.isDigit])
      (rcat [RPat.plus Char.isDigit, RPat.cls dashCls, RPat.rep Char.isDigit 4]))]

/-- Entity pattern, law numbers 2: the same with decret|(Arabic marsum). -/
def lawNumbersPat2 : RPat :=
  rcat [RPat.alt (RPat.lit true "décret".toList) (RPat.lit true "مرسوم".toList),
    RPat.star jsWhitespaceB,
    RPat.opt (rcat [RPat.lit true "n".toList, RPat.opt (RPat.cls degOCls),
      RPat.star jsWhitespaceB]),
    RPat.grp (RPat.alt
      (rcat [RPat.rep Char.isDigit 4, RPat.cls dashCls, RPat.plus Char.isDigit])
      (rcat [RPat.plus Char.isDigit, RPat.cls dashCls, RPat.rep Char.isDigit 4]))]

/-- Entity pattern, article numbers 1: article\s*(\d+(?:\s*bis|\s*ter)?) gi. -/
def articleNumbersPat1 : RPat :=
  rcat [RPat.lit true "article".toList, RPat.star jsWhitespaceB,
    RPat.grp (rcat [RPat.plus Char.isDigit,
      RPat.opt (RPat.alt
        (rcat [RPat.star jsWhitespaceB, RPat.lit true "bis".toList])
        (rcat [RPat.star jsWhitespaceB, RPat.lit true "ter".toList]))])]

/-- Entity pattern, article numbers 2: (Arabic al-fasl)\s*(\d+) gi. -/
def articleNumbersPat2 : RPat :=
  rcat [RPat.lit true "الفصل".toList, RPat.star jsWhitespaceB,
    RPat.grp (RPat.plus Char.isDigit)]

/-- Entity pattern, dates 1: (\d{4}) g. -/
def datesPat1 : RPat := RPat.grp (RPat.rep Char.isDigit 4)

/-- Entity pattern, dates 2: (month alternation)\s*\d{4} gi; the capture is
the month name. -/
def datesPat2 : RPat :=
  rcat [RPat.grp (ralt (RPat.lit true "janvier".toList)
      [RPat.lit true "février".toList, RPat.lit true "mars".toList,
       RPat.lit true "avril".toList, RPat.lit true "mai".toList,
       RPat.lit true "juin".toList, RPat.lit true "juillet".toList,
       RPat.lit true "août".toList, RPat.lit true "septembre".toList,
       RPat.lit true "octobre".toList, RPat.lit true "novembre".toList,
       RPat.lit true "décembre".toList]),
    RPat.star jsWhitespaceB, RPat.rep Char.isDigit 4]

/-- Entity pattern, amounts: (\d+(?:[.,]\d+)?)\s*(?:dinars?|DT|(Arabic dt)) gi. -/
def amountsPat : RPat :=
  rcat [RPat.grp (rcat [RPat.plus Char.isDigit,
      RPat.opt (rcat [RPat.cls dotCommaCls, RPat.plus Char.isDigit])]),
    RPat.star jsWhitespaceB,
    ralt (rcat [RPat.lit true "dinar".toList, RPat.opt (RPat.lit true "s".toList)])
      [RPat.lit true "dt".toList, RPat.lit true "د.ت".toList]]

/-- Entity pattern, durations 1: (\d+)\s*(?:jours?|semaines?|mois|ans?) gi. -/
def durationsPat1 : RPat :=
  rcat [RPat.grp (RPat.plus Char.isDigit), RPat.star jsWhitespaceB,
    ralt (rcat [RPat.lit true "jour".toList, RPat.opt (RPat.lit true "s".toList)])
      [rcat [RPat.lit true "semaine".toList, RPat.opt (RPat.lit true "s".toList)],
       RPat.lit true "mois".toList,
       rcat [RPat.lit true "an".toList, RPat.opt (RPat.lit true "s".toList)]]]

/-- Entity pattern, durations 2: (\d+)\s*(Arabic units) gi. -/
def durationsPat2 : RPat :=
  rcat [RPat.grp (RPat.plus Char.isDigit), RPat.star jsWhitespaceB,
    ralt (RPat.lit true "يوم".toList)
      [RPat.lit true "أسبوع".toList, RPat.lit true "شهر".toList,
       RPat.lit true "سنة".toList]]

/-- Entity pattern, actors 1 (no capture group, whole match pushed). -/
def actorsPat1 : RPat :=
  ralt (RPat.lit true "employeur".toList)
    [RPat.lit true "employé".toList, RPat.lit true "travailleur".toList,
     RPat.lit true "locataire".toList, RPat.lit true "propriétaire".toList,
     RPat.lit true "contribuable".toList]

/-- Entity pattern, actors 2 (Arabic). -/
def actorsPat2 : RPat :=
  ralt (RPat.lit true "مؤجر".toList)
    [RPat.lit true "أجير".toList, RPat.lit true "عامل".toList,
     RPat.lit true "مكتري".toList, RPat.lit true "مالك".toList]

/-- The extracted entities (interface ExtractedEntities). -/
structure ExtractedEntities where
  lawNumbers : List String
  articleNumbers : List String
  dates : List String
  amounts : List String
  durations : List String
  actors : List String
deriving DecidableEq, Repr

/-- QueryClassifier.extractEntities (lines 222-246): run each pattern
battery, concatenate in pattern order, de-duplicate per type. -/
def QueryClassifier.extractEntities (query : String) : ExtractedEntities :=
  { lawNumbers := jsSetDedup (regexValues lawNumbersPat1 query ++ regexValues lawNumbersPat2 query),
    articleNumbers := jsSetDedup (regexValues articleNumbersPat1 query ++ regexValues articleNumbersPat2 query),
    dates := jsSetDedup (regexValues datesPat1 query ++ regexValues datesPat2 query),
    amounts := jsSetDedup (regexValues amountsPat query),
    durations := jsSetDedup (regexValues durationsPat1 query ++ regexValues durationsPat2 query),
    actors := jsSetDedup (regexValues actorsPat1 query ++ regexValues actorsPat2 query) }

/-- `Object.values(entities).flat().length`. -/
def entityCount (e : ExtractedEntities) : ℕ :=
  e.lawNumbers.length + e.articleNumbers.length + e.dates.length +
  e.amounts.length + e.durations.length + e.actors.length

/-- QueryClassifier.calculateConfidence (lines 248-266): base 0.3, +0.3 for
an identified domain, +0.2 for an identified intent,
+min(0.1 x entityCount, 0.2), capped at 1. -/
def QueryClassifier.calculateConfidence (domain : LegalDomain)
    (intent : QueryIntent) (entities : ExtractedEntities) : ℚ :=
  min ((3 / 10) + (if domain ≠ .general then 3 / 10 else 0) +
    (if intent ≠ .information then 1 / 5 else 0) +
    min ((entityCount entities : ℚ) * (1 / 10)) (1 / 5)) 1

/-- The TypeScript string name of each domain. -/
def domainName : LegalDomain → String
  | .travail => "travail"
  | .commercial => "commercial"
  | .fiscal => "fiscal"
  | .civil => "civil"
  | .penal => "penal"
  | .administratif => "administratif"
  | .constitutionnel => "constitutionnel"
  | .famille => "famille"
  | .environnement => "environnement"
  | .propriete => "propriete"
  | .donnees => "donnees"
  | .general => "general"

/-- QueryClassifier.buildFilters (lines 268-291): suggest a domaine filter
for an identified domain, and type=decret when a cited law number mentions
a decree. -/
def QueryClassifier.buildFilters (domain : LegalDomain)
    (entities : ExtractedEntities) : List (String × String) :=
  (if domain ≠ .general then [("domaine", domainName domain)] else []) ++
  (if entities.lawNumbers.any (fun n =>
      containsSub (n.toList.map Char.toLower) "decret".toList ||
      containsSub n.toList "مرسوم".toList)
   then [("type", "decret")] else [])

/-- The classification result (interface QueryClassification);
suggestedFilters is an insertion-ordered key/value list. -/
structure QueryClassification where
  domain : LegalDomain
  intent : QueryIntent
  entities : ExtractedEntities
  confidence : ℚ
  suggestedFilters : List (String × String)
deriving DecidableEq, Repr

/-- QueryClassifier.classify (lines 182-196). -/
def QueryClassifier.classify (query : String) : QueryClassification :=
  let domain := QueryClassifier.detectDomain query
  let intent := QueryClassifier.detectIntent query
  let entities := QueryClassifier.extractEntities query
  { domain := domain, intent := intent, entities := entities,
    confidence := QueryClassifier.calculateConfidence domain intent entities,
    suggestedFilters := QueryClassifier.buildFilters domain entities }

theorem foldl_domainStep_const (q : String) :
    ∀ (l : List LegalDomain) (st : LegalDomain × ℕ),
      (∀ d ∈ l, QueryClassifier.domainMatchCount d q ≤ st.2) →
      l.foldl (QueryClassifier.domainStep q) st = st := by
  intro l
  induction l with
  | nil => intro st _; rfl
  | cons d ds ih =>
    intro st h
    have hd : QueryClassifier.domainMatchCount d q ≤ st.2 :=
      h d (List.mem_cons_self _ _)
    have hstep : QueryClassifier.domainStep q st d = st := by
      unfold QueryClassifier.domainStep
      simp only [if_neg (not_lt.mpr hd)]
    rw [List.foldl_cons, hstep]
    exact ih st (fun x hx => h x (List.mem_cons_of_mem _ hx))

theorem foldl_domainStep_unique (q : String) (A : LegalDomain)
    (hA : 1 ≤ QueryClassifier.domainMatchCount A q) :
    ∀ (l : List LegalDomain) (st : LegalDomain × ℕ),
      A ∈ l →
      (∀ d ∈ l, d ≠ A → QueryClassifier.domainMatchCount d q = 0) →
      st.2 = 0 →
      (l.foldl (QueryClassifier.domainStep q) st).1 = A := by
  intro l
  induction l with
  | nil => intro st h; simp at h
  | cons d ds ih =>
    intro st hmem hz hst
    by_cases hd : d = A
    · subst hd
      have hstep : QueryClassifier.domainStep q st d =
          (d, QueryClassifier.domainMatchCount d q) := by
        unfold QueryClassifier.domainStep
        rw [if_pos (by omega)]
      rw [List.foldl_cons, hstep]
      rw [foldl_domainStep_const q ds (d, QueryClassifier.domainMatchCount d q) ?_]
      · intro x hx
        by_cases hxA : x = d
        · subst hxA; exact le_refl _
        · have := hz x (List.mem_cons_of_mem _ hx) hxA
          simp only [this]
          omega
    · have hdz : QueryClassifier.domainMatchCount d q = 0 :=
        hz d (List.mem_cons_self _ _) hd
      have hstep : QueryClassifier.domainStep q st d = st := by
        unfold QueryClassifier.domainStep
        rw [hdz, if_neg (by omega)]
      rw [List.foldl_cons, hstep]
      have hmem' : A ∈ ds := by
        rcases List.mem_cons.mp hmem with h | h
        · exact absurd h.symm hd
        · exact h
      exact ih st hmem' (fun x hx => hz x (List.mem_cons_of_mem _ hx)) hst

theorem mem_domainEntries (A : LegalDomain) : A ∈ domainEntries := by
  cases A <;> simp [domainEntries]

/-- Claim C7, amended: a question matching at least one pattern of domain A
and none of any other domain classifies as A; a question matching zero
domain patterns classifies as general with confidence at most
0.3 + 0.2 (the intent bonus, taken when an intent pattern matched)
+ min(0.1 x entityCount, 0.2) -- the original claim omitted the intent
bonus term. -/
theorem claim_C7_classifier_domain_confidence :
    (∀ (q : String) (A : LegalDomain),
      1 ≤ QueryClassifier.domainMatchCount A q →
      (∀ B ∈ domainEntries, B ≠ A → QueryClassifier.domainMatchCount B q = 0) →
      (QueryClassifier.classify q).domain = A) ∧
    (∀ q : String,
      (∀ B ∈ domainEntries, QueryClassifier.domainMatchCount B q = 0) →
      (QueryClassifier.classify q).domain = .general ∧
      (QueryClassifier.classify q).confidence ≤
        3 / 10 +
        (if (QueryClassifier.classify q).intent ≠ .information then (1 : ℚ) / 5 else 0) +
        min ((entityCount (QueryClassifier.classify q).entities : ℚ) * (1 / 10))
          (1 / 5)) := by
  constructor
  · intro q A hA hz
    show QueryClassifier.detectDomain q = A
    exact foldl_domainStep_unique q A hA domainEntries (LegalDomain.general, 0)
      (mem_domainEntries A) hz rfl
  · intro q hz
    have hdom : QueryClassifier.detectDomain q = .general := by
      unfold QueryClassifier.detectDomain
      rw [foldl_domainStep_const q domainEntries (LegalDomain.general, 0)
        (fun d hd => by rw [hz d hd])]
    refine ⟨hdom, ?_⟩
    show QueryClassifier.calculateConfidence (QueryClassifier.detectDomain q)
      (QueryClassifier.detectIntent q) (QueryClassifier.extractEntities q) ≤ _
    rw [hdom]
    unfold QueryClassifier.calculateConfidence
    have h0 : (if (LegalDomain.general : LegalDomain) ≠ .general then (3 : ℚ) / 10 else 0) = 0 := by
      simp
    rw [h0]
    refine le_trans (min_le_left _ _) ?_
    have : (QueryClassifier.classify q).intent = QueryClassifier.detectIntent q := rfl
    rw [this]
    have : (QueryClassifier.classify q).entities = QueryClassifier.extractEntities q := rfl
    rw [this]
    linarith [le_refl (0 : ℚ)]

/-- Claim C7, counterexample: the question "comment faire" matches no
domain pattern, yet its confidence is 0.5, exceeding the claimed bound of
0.3 plus the (zero) entity bonus, because the matched procedure intent
contributes a further 0.2. -/
theorem claim_C7_counterexample :
    (∀ B ∈ domainEntries, QueryClassifier.domainMatchCount B "comment faire" = 0) ∧
    (QueryClassifier.classify "comment faire").confidence = 1 / 2 ∧
    ¬((QueryClassifier.classify "comment faire").confidence ≤
      3 / 10 +
      min ((entityCount (QueryClassifier.classify "comment faire").entities : ℚ) *
        (1 / 10)) (1 / 5)) := by
  refine ⟨by decide, by decide, ?_⟩
  have h1 : (QueryClassifier.classify "comment faire").confidence = 1 / 2 := by decide
  have h2 : entityCount (QueryClassifier.classify "comment faire").entities = 0 := by
    decide
  rw [h1, h2]
  norm_num

/-- Witness for claim C7: the question "divorce" matches exactly one
famille pattern and no other domain, and classifies as famille; the
question "bonjour monde" matches no domain pattern and classifies as
general within the amended confidence bound. -/
theorem claim_C7_classifier_domain_confidence_witness :
    (QueryClassifier.classify "divorce").domain = .famille ∧
    (QueryClassifier.classify "bonjour monde").domain = .general ∧
    (QueryClassifier.classify "bonjour monde").confidence ≤
      3 / 10 +
      (if (QueryClassifier.classify "bonjour monde").intent ≠ .information
        then (1 : ℚ) / 5 else 0) +
      min ((entityCount (QueryClassifier.classify "bonjour monde").entities : ℚ) *
        (1 / 10)) (1 / 5) := by
  refine ⟨?_, ?_, ?_⟩
  · exact claim_C7_classifier_domain_confidence.1 "divorce" .famille
      (by decide) (by decide)
  · exact (claim_C7_classifier_domain_confidence.2 "bonjour monde" (by decide)).1
  · exact (claim_C7_classifier_domain_confidence.2 "bonjour monde" (by decide)).2

/-- The three supported languages. -/
inductive Lang where
  | ar | fr | en
deriving DecidableEq, Repr

/-- The language code string. -/
def langCode : Lang → String
  | .ar => "ar"
  | .fr => "fr"
  | .en => "en"

/-- The French word list of BaseAgent.detectLanguage. -/
def frenchDetectWords : List String :=
  ["le", "la", "les", "de", "du", "des", "un", "une", "est", "sont",
   "dans", "pour", "avec", "sur", "par"]

/-- BaseAgent.detectLanguage (src/unnamed/part_007, lines 21-52): Arabic if
more than 30 percent of the characters are in the Arabic block, else French
if a French word occurs space-delimited or at the start, else English. -/
def BaseAgent.detectLanguage (text : String) : Lang :=
  let arabicChars := (text.toList.filter
    (fun c => 0x600 ≤ c.toNat && c.toNat ≤ 0x6FF)).length
  let totalChars := text.length
  if 0 < totalChars ∧ (3 / 10 : ℚ) < (arabicChars : ℚ) / (totalChars : ℚ) then .ar
  else
    let lowerText := (jsToLowerStr text).toList
    if frenchDetectWords.any (fun w =>
        containsSub lowerText (" " ++ w ++ " ").toList ||
        beginsWith (w ++ " ").toList lowerText)
    then .fr else .en

/-- RAGPipeline.getNoResultsMessage (src/unnamed/part_002, lines 313-320). -/
def RAGPipeline.getNoResultsMessage : Lang → String
  | .ar => "لم أجد معلومات حول هذا الموضوع في النصوص المتاحة. أنصحك بمراجعة مختص قانوني."
  | .fr => "Je n" ++ ap ++ "ai pas trouvé d" ++ ap ++
      "information sur ce sujet dans les textes disponibles. Je vous conseille de consulter un professionnel du droit."
  | .en => "I did not find information on this topic in the available texts. I advise you to consult a legal professional."

/-- RAGPipeline.formatSources (src/unnamed/part_002, lines 298-311). -/
def RAGPipeline.formatSources (documents : List SearchResult) (language : Lang) :
    List Source :=
  documents.map (fun doc =>
    { id := doc.id, type := doc.type,
      title := if language = .ar then doc.titleAr.getD doc.title
               else doc.titleFr.getD doc.title,
      numero := doc.numero, date := doc.date,
      relevantPassage := String.mk ((doc.content.getD "").toList.take 500),
      url := "/" ++ langCode language ++ "/document/" ++ doc.id })

/-- RAGPipeline.calculateConfidence (src/unnamed/part_002, lines 322-326):
zero on an empty list, otherwise `min(averageScore * 1.5, 1)`. -/
def RAGPipeline.calculateConfidence (documents : List SearchResult) : JsNum :=
  if documents.length = 0 then .num 0
  else
    JsNum.jmin
      (JsNum.mul
        (JsNum.div (documents.foldl (fun sum d => JsNum.add sum d.score) (.num 0))
          (.num (documents.length : ℚ)))
        (.num (3 / 2)))
      (.num 1)

/-- A pipeline result (interface RAGResult). -/
structure RAGResult where
  answer : String
  sources : List Source
  confidence : JsNum
deriving DecidableEq, Repr

/-- RAGPipeline.query (src/unnamed/part_002, lines 191-239): retrieve (the
two branch outcomes are explicit), return the canned no-results answer on
an empty candidate or reranked list, otherwise generate (the LLM output is
the explicit `genAnswer` parameter), format the truncated sources and
compute the score-based confidence over the full reranked list. -/
def RAGPipeline.query (cfg : RAGConfig) (currentYear : ℤ) (genAnswer : String)
    (question : String) (language : Lang) (topK : ℕ)
    (lexicalResult semanticResult : Except String (List SearchResult)) : RAGResult :=
  let candidates := Retriever.retrieve cfg.retriever.fusionK lexicalResult semanticResult
  if candidates.length = 0 then
    { answer := RAGPipeline.getNoResultsMessage language, sources := [],
      confidence := .num 0 }
  else
    let reranked := Reranker.rerank cfg.reranker currentYear question candidates
    if reranked.length = 0 then
      { answer := RAGPipeline.getNoResultsMessage language, sources := [],
        confidence := .num 0 }
    else
      { answer := genAnswer,
        sources := RAGPipeline.formatSources (reranked.take topK) language,
        confidence := RAGPipeline.calculateConfidence reranked }

/-- RAGAgent.calculateCombinedConfidence (rag-agent.ts, lines 510-513):
`rag * 0.7 + classification * 0.3`. -/
def RAGAgent.calculateCombinedConfidence (ragConfidence classificationConfidence : JsNum) :
    JsNum :=
  JsNum.add (JsNum.mul ragConfidence (.num (7 / 10)))
    (JsNum.mul classificationConfidence (.num (3 / 10)))

/-- RAGAgent.calculateConfidence (rag-agent.ts, lines 515-519):
`min(sources.length / 5, 1)`; used only by executeStream. -/
def RAGAgent.calculateConfidence (sources : List Source) : JsNum :=
  if sources.length = 0 then .num 0
  else JsNum.jmin (.num ((sources.length : ℚ) / 5)) (.num 1)

/-- The agent-level output (interface RAGOutput); the language field is the
code string, as in the source. -/
structure RAGOutput where
  answer : String
  sources : List Source
  language : String
  confidence : JsNum
  fromCache : Bool
deriving DecidableEq, Repr

/-- The agent configuration slice used by execute. -/
structure StudioRagConfig where
  rag : RAGConfig
  maxSources : ℕ
deriving DecidableEq, Repr

/-- The repository configuration: rag config plus agents.rag.maxSources 5. -/
def snijStudioConfig : StudioRagConfig :=
  { rag := snijRagConfig, maxSources := 5 }

/-- RAGAgent.execute (rag-agent.ts, lines 47-232), output-relevant model.
External effects enter as parameters: `cachedHit` is the value the cache
lookup would return for this question (consulted only when the cache is
enabled and no session id was supplied, as in the source), the branch
outcomes feed the retriever, `genAnswer` is the LLM completion and
`currentYear` the clock. The returned Boolean records whether cache.set was
invoked (the source guards it by useCache, no session id, and non-empty
sources). Conversation memory and analytics are fire-and-forget effects
that do not influence the returned value. -/
def RAGAgent.execute (cfg : StudioRagConfig) (currentYear : ℤ) (genAnswer : String)
    (question : String) (maxSources : Option ℕ) (sessionId : Option String)
    (useCache : Bool) (cachedHit : Option CachedResponse)
    (lexicalResult semanticResult : Except String (List SearchResult)) :
    RAGOutput × Bool :=
  let language := BaseAgent.detectLanguage question
  let classification := QueryClassifier.classify question
  match (if useCache && sessionId.isNone then cachedHit else none) with
  | some cached =>
    ({ answer := cached.answer, sources := cached.sources,
       language := cached.language, confidence := cached.confidence,
       fromCache := true }, false)
  | none =>
    let result := RAGPipeline.query cfg.rag currentYear genAnswer question language
      (maxSources.getD cfg.maxSources) lexicalResult semanticResult
    let combinedConfidence := RAGAgent.calculateCombinedConfidence result.confidence
      (.num classification.confidence)
    ({ answer := result.answer, sources := result.sources,
       language := langCode language, confidence := combinedConfidence,
       fromCache := false },
     useCache && sessionId.isNone && !result.sources.isEmpty)

/-- Claim C3, amended: for every execute() call that reaches generation,
the returned confidence is `0.7 * retrievalConfidence + 0.3 *
classificationConfidence` where retrievalConfidence is the pipeline's
score-based confidence `min(averageScore * 1.5, 1)` over the full reranked
list -- not `min(sourceCount / 5, 1)`, which is used only by
executeStream. -/
theorem claim_C3_execute_confidence
    (cfg : StudioRagConfig) (currentYear : ℤ) (genAnswer question : String)
    (maxSources : Option ℕ) (sessionId : Option String) (useCache : Bool)
    (lexicalResult semanticResult : Except String (List SearchResult))
    (h1 : Retriever.retrieve cfg.rag.retriever.fusionK lexicalResult semanticResult ≠ [])
    (h2 : Reranker.rerank cfg.rag.reranker currentYear question
      (Retriever.retrieve cfg.rag.retriever.fusionK lexicalResult semanticResult) ≠ []) :
    (RAGAgent.execute cfg currentYear genAnswer question maxSources sessionId useCache
      none lexicalResult semanticResult).1.confidence =
      RAGAgent.calculateCombinedConfidence
        (RAGPipeline.calculateConfidence
          (Reranker.rerank cfg.rag.reranker currentYear question
            (Retriever.retrieve cfg.rag.retriever.fusionK lexicalResult semanticResult)))
        (.num (QueryClassifier.classify question).confidence) := by
  unfold RAGAgent.execute
  simp only [ite_self]
  unfold RAGPipeline.query
  dsimp only
  rw [if_neg (by simpa [List.length_eq_zero] using h1)]
  rw [if_neg (by simpa [List.length_eq_zero] using h2)]

/-- Claim C3, counterexample: a one-source execute() run whose returned
confidence differs from the claimed formula `0.7 * min(sourceCount/5, 1) +
0.3 * classificationConfidence`: the code returns 0.7 * min(1.5 *
averageScore, 1) + 0.3 * 0.5 = 5799/12200, while the claimed formula gives
0.7 * 0.2 + 0.3 * 0.5 = 29/100. -/
theorem claim_C3_counterexample :
    (RAGAgent.execute snijStudioConfig 2024 "réponse" "comment faire" none none true
      none (.ok [{ id := "d1", title := "comment faire" }]) (.ok [])).1.sources.length = 1 ∧
    (RAGAgent.execute snijStudioConfig 2024 "réponse" "comment faire" none none true
      none (.ok [{ id := "d1", title := "comment faire" }]) (.ok [])).1.confidence ≠
      RAGAgent.calculateCombinedConfidence
        (RAGAgent.calculateConfidence
          (RAGAgent.execute snijStudioConfig 2024 "réponse" "comment faire" none none true
            none (.ok [{ id := "d1", title := "comment faire" }]) (.ok [])).1.sources)
        (.num (QueryClassifier.classify "comment faire").confidence) := by
  constructor
  · decide
  · decide

/-- Witness for claim C3 (amended) at the counterexample input: both
guard hypotheses hold and the theorem applies. -/
theorem claim_C3_execute_confidence_witness :
    (RAGAgent.execute snijStudioConfig 2024 "réponse" "comment faire" none none true
      none (.ok [{ id := "d1", title := "comment faire" }]) (.ok [])).1.confidence =
      RAGAgent.calculateCombinedConfidence
        (RAGPipeline.calculateConfidence
          (Reranker.rerank snijStudioConfig.rag.reranker 2024 "comment faire"
            (Retriever.retrieve snijStudioConfig.rag.retriever.fusionK
              (.ok [{ id := "d1", title := "comment faire" }]) (.ok []))))
        (.num (QueryClassifier.classify "comment faire").confidence) :=
  claim_C3_execute_confidence snijStudioConfig 2024 "réponse" "comment faire"
    none none true (.ok [{ id := "d1", title := "comment faire" }]) (.ok [])
    (by decide) (by decide)

/-- Claim C4, amended: when both retrieval branches return zero candidates,
execute() returns the canned no-results message for the detected language
with empty sources and never invokes cache.set, but the returned confidence
is `0.3 * classificationConfidence` (at least 0.09, since the classifier
base confidence is 0.3), not 0: the pipeline confidence 0 is still combined
with the classification confidence. -/
theorem claim_C4_empty_retrieval
    (cfg : StudioRagConfig) (currentYear : ℤ) (genAnswer question : String)
    (maxSources : Option ℕ) (sessionId : Option String) (useCache : Bool) :
    (RAGAgent.execute cfg currentYear genAnswer question maxSources sessionId useCache
      none (.ok []) (.ok [])).1.answer =
      RAGPipeline.getNoResultsMessage (BaseAgent.detectLanguage question) ∧
    (RAGAgent.execute cfg currentYear genAnswer question maxSources sessionId useCache
      none (.ok []) (.ok [])).1.sources = [] ∧
    (RAGAgent.execute cfg currentYear genAnswer question maxSources sessionId useCache
      none (.ok []) (.ok [])).1.confidence =
      .num ((QueryClassifier.classify question).confidence * (3 / 10)) ∧
    (RAGAgent.execute cfg currentYear genAnswer question maxSources sessionId useCache
      none (.ok []) (.ok [])).2 = false := by
  have hcand : Retriever.retrieve cfg.rag.retriever.fusionK
      (.ok ([] : List SearchResult)) (.ok ([] : List SearchResult)) = [] := rfl
  unfold RAGAgent.execute
  simp only [ite_self]
  unfold RAGPipeline.query
  dsimp only
  rw [hcand]
  simp only [List.length_nil, if_pos rfl]
  refine ⟨rfl, rfl, ?_, by simp⟩
  show JsNum.add (JsNum.mul (.num 0) (.num (7 / 10)))
    (JsNum.mul (.num (QueryClassifier.classify question).confidence) (.num (3 / 10))) = _
  simp only [JsNum.mul, JsNum.add, JsNum.num.injEq]
  ring

/-- Claim C4, counterexample: with both branches returning zero candidates
the returned confidence is 0.15 (0.3 times the classification confidence
0.5 of "comment faire"), not 0. -/
theorem claim_C4_counterexample :
    (RAGAgent.execute snijStudioConfig 2024 "réponse" "comment faire" none none true
      none (.ok []) (.ok [])).1.confidence = .num (3 / 20) ∧
    (RAGAgent.execute snijStudioConfig 2024 "réponse" "comment faire" none none true
      none (.ok []) (.ok [])).1.confidence ≠ .num 0 := by
  constructor
  · decide
  · decide
